import Mathlib

/-!
# User-management service: a shallow embedding of the Go sources

The development follows `internal/user/model.go`, `internal/common/model.go`,
`internal/common/helpers.go`, `internal/user/service.go`, `internal/user/repository.go`,
`internal/user/eventpublisher.go`, `pkg/server/middlewares.go` and `pkg/user/handler.go`.

Conventions of the embedding.

* A Go `string` holding valid UTF-8 is a Lean `String`; Go's `len` is the number of bytes
  of the UTF-8 encoding (`len`).
* A Go pointer `*T` is an `Option T`, `nil` being `none`. A Go `error` is an
  `Option GoError`, `nil` being `none`.
* The two collaborators of the service (the `repository` and the `eventPublisher`
  interfaces) are records of state-passing functions over arbitrary state types, so a
  collaborator may answer differently on every call. Every call the service makes is
  appended to a call log kept in the `World`.
* A run-time fault (nil pointer dereference) is the outcome `Outcome.panicked`.
* `context.Context` arguments and the `log` calls carry no decision of the code and are
  left out.
* Functions of the Go standard library whose tables are not part of the repository
  (`net/mail.ParseAddress`, `unicode.ToUpper` above ASCII) are fields of `Stdlib`.
* The store is PostgreSQL behind gorm: the statements of `*gorm.DB` are fields of `gormDB`
  with arbitrary results; a transaction in which a statement failed is aborted and cannot
  be committed; `LIKE` follows the PostgreSQL documentation.
-/

namespace Faceit

/-! ## Strings and the standard library -/

/-- Go's `len` on a string: the number of bytes. -/
def len (s : String) : Nat := s.utf8ByteSize

/-- The parts of the Go standard library the code calls and whose tables live outside the
repository. -/
structure Stdlib where
  /-- Whether `net/mail.ParseAddress` returns a nil error for the string. -/
  mailParseAddressOk : String → Bool
  /-- The result of `unicode.ToUpper` on a rune above `unicode.MaxASCII`. -/
  unicodeToUpper : Char → Char

/-- The rune mapping `unicode.ToUpper`: explicit on ASCII, table-driven above. -/
def unicode.ToUpper (lib : Stdlib) (r : Char) : Char :=
  if r.toNat ≤ 127 then
    (if 97 ≤ r.toNat ∧ r.toNat ≤ 122 then Char.ofNat (r.toNat - 32) else r)
  else lib.unicodeToUpper r

/-- The function `strings.ToUpper`: every rune mapped by `unicode.ToUpper` (the ASCII fast
path of the Go implementation computes the same string). -/
def strings.ToUpper (lib : Stdlib) (s : String) : String :=
  String.mk (s.data.map (unicode.ToUpper lib))

/-! ## SHA-256 (FIPS 180-4), as computed by `crypto/sha256.Sum256` -/

namespace sha256

/-- The word size modulus. -/
def W : Nat := 4294967296

/-- Rotate a 32-bit word right. -/
def rotr (x n : Nat) : Nat := ((x >>> n) ||| (x <<< (32 - n))) % W

/-- Round constants. -/
def K : List Nat :=
  [0x428a2f98, 0x71374491, 0xb5c0fbcf, 0xe9b5dba5, 0x3956c25b, 0x59f111f1, 0x923f82a4, 0xab1c5ed5,
   0xd807aa98, 0x12835b01, 0x243185be, 0x550c7dc3, 0x72be5d74, 0x80deb1fe, 0x9bdc06a7, 0xc19bf174,
   0xe49b69c1, 0xefbe4786, 0x0fc19dc6, 0x240ca1cc, 0x2de92c6f, 0x4a7484aa, 0x5cb0a9dc, 0x76f988da,
   0x983e5152, 0xa831c66d, 0xb00327c8, 0xbf597fc7, 0xc6e00bf3, 0xd5a79147, 0x06ca6351, 0x14292967,
   0x27b70a85, 0x2e1b2138, 0x4d2c6dfc, 0x53380d13, 0x650a7354, 0x766a0abb, 0x81c2c92e, 0x92722c85,
   0xa2bfe8a1, 0xa81a664b, 0xc24b8b70, 0xc76c51a3, 0xd192e819, 0xd6990624, 0xf40e3585, 0x106aa070,
   0x19a4c116, 0x1e376c08, 0x2748774c, 0x34b0bcb5, 0x391c0cb3, 0x4ed8aa4a, 0x5b9cca4f, 0x682e6ff3,
   0x748f82ee, 0x78a5636f, 0x84c87814, 0x8cc70208, 0x90befffa, 0xa4506ceb, 0xbef9a3f7, 0xc67178f2]

/-- Initial hash value. -/
def H0 : List Nat :=
  [0x6a09e667, 0xbb67ae85, 0x3c6ef372, 0xa54ff53a, 0x510e527f, 0x9b05688c, 0x1f83d9ab, 0x5be0cd19]

/-- The UTF-8 bytes of one rune. -/
def runeBytes (c : Char) : List Nat :=
  let n := c.toNat
  if n < 0x80 then [n]
  else if n < 0x800 then [0xC0 + n / 64, 0x80 + n % 64]
  else if n < 0x10000 then [0xE0 + n / 4096, 0x80 + n / 64 % 64, 0x80 + n % 64]
  else [0xF0 + n / 262144, 0x80 + n / 4096 % 64, 0x80 + n / 64 % 64, 0x80 + n % 64]

/-- The conversion `[]byte(s)`. -/
def bytesOf (s : String) : List Nat := s.data.flatMap runeBytes

/-- Big-endian bytes of a number, `k` of them. -/
def beBytes : Nat → Nat → List Nat
  | 0, _ => []
  | k + 1, n => (n / 256 ^ k) % 256 :: beBytes k n

/-- Message padding: a one bit, zeros up to 56 mod 64, the bit length on 8 bytes. -/
def pad (msg : List Nat) : List Nat :=
  let l := msg.length
  msg ++ [0x80] ++ List.replicate ((119 - l % 64) % 64) 0 ++ beBytes 8 (8 * l)

/-- Big-endian 32-bit words of a byte list. -/
def words : Nat → List Nat → List Nat
  | 0, _ => []
  | k + 1, bs =>
    (bs.getD 0 0 * 16777216 + bs.getD 1 0 * 65536 + bs.getD 2 0 * 256 + bs.getD 3 0)
      :: words k (bs.drop 4)

/-- Extension of the message schedule from 16 to 64 words. -/
def schedule : Nat → List Nat → List Nat
  | 0, w => w
  | k + 1, w =>
    let n := w.length
    let w15 := w.getD (n - 15) 0
    let w2 := w.getD (n - 2) 0
    let s0 := rotr w15 7 ^^^ rotr w15 18 ^^^ (w15 >>> 3)
    let s1 := rotr w2 17 ^^^ rotr w2 19 ^^^ (w2 >>> 10)
    schedule k (w ++ [(w.getD (n - 16) 0 + s0 + w.getD (n - 7) 0 + s1) % W])

/-- One round of the compression function on the working variables `a..h`. -/
def round (v : List Nat) (kw : Nat × Nat) : List Nat :=
  match v with
  | [a, b, c, d, e, f, g, h] =>
    let S1 := rotr e 6 ^^^ rotr e 11 ^^^ rotr e 25
    let ch := (e &&& f) ^^^ ((W - 1 - e) &&& g)
    let t1 := (h + S1 + ch + kw.1 + kw.2) % W
    let S0 := rotr a 2 ^^^ rotr a 13 ^^^ rotr a 22
    let maj := (a &&& b) ^^^ (a &&& c) ^^^ (b &&& c)
    let t2 := (S0 + maj) % W
    [(t1 + t2) % W, a, b, c, (d + t1) % W, e, f, g]
  | _ => v

/-- Compression of one 64-byte block into the hash state. -/
def compress (h : List Nat) (block : List Nat) : List Nat :=
  let w := schedule 48 (words 16 block)
  let v := (K.zip w).foldl round h
  List.zipWith (fun x y => (x + y) % W) h v

/-- The hash state after `n` blocks of the padded message. -/
def blocks : Nat → List Nat → List Nat → List Nat
  | 0, h, _ => h
  | n + 1, h, bs => blocks n (compress h (bs.take 64)) (bs.drop 64)

/-- The digest `sha256.Sum256(data)`: 32 bytes. -/
def Sum256 (data : List Nat) : List Nat :=
  let p := pad data
  (blocks (p.length / 64) H0 p).flatMap (beBytes 4)

end sha256

/-- One lowercase hexadecimal digit. -/
def hexDigit (n : Nat) : Char :=
  if n < 10 then Char.ofNat (48 + n) else Char.ofNat (87 + n)

/-- The formatting `fmt.Sprintf("%x", bytes)` of a byte array: two lowercase hexadecimal
digits per byte. -/
def sprintfHex (bs : List Nat) : String :=
  String.mk (bs.flatMap (fun b => [hexDigit (b / 16), hexDigit (b % 16)]))

/-- The function `encryptPass` of service.go. -/
def encryptPass (pass : String) : String :=
  sprintfHex (sha256.Sum256 (sha256.bytesOf pass))

/-! ## Data model (`internal/user/model.go`, `internal/common/model.go`) -/

/-- A `uuid.UUID`: sixteen bytes, kept as the number they spell. -/
structure UUID where
  val : Nat
  deriving DecidableEq, Repr

/-- The all-zero identifier `uuid.Nil`. -/
def uuid.Nil : UUID := ⟨0⟩

/-- A `time.Time` value: the three fields Go compares with `==`; `loc = 0` is the nil
location pointer. -/
structure Time where
  wall : Nat
  ext : Int
  loc : Nat
  deriving DecidableEq, Repr

/-- The struct `User` of model.go. -/
structure User where
  ID : UUID
  FirstName : String
  LastName : String
  Nickname : String
  Email : String
  Country : String
  CreatedAt : Time
  UpdatedAt : Option Time
  deriving DecidableEq, Repr

/-- The composite literal `User{}`: every field at its zero value. -/
def emptyUser : User :=
  { ID := uuid.Nil, FirstName := "", LastName := "", Nickname := "", Email := "", Country := "",
    CreatedAt := ⟨0, 0, 0⟩, UpdatedAt := none }

/-- The package-level error variables: each is one allocated value, equal only to itself.
`GormRecordNotFound` is `gorm.ErrRecordNotFound`. -/
inductive ErrVar where
  | UserNotFound
  | NilUUIDNotAllowed
  | NewUserWithID
  | InvalidUserInputData
  | InvalidPagination
  | InvalidFilter
  | GormRecordNotFound
  deriving DecidableEq, Repr

/-- The message an error variable was created with. -/
def ErrVar.text : ErrVar → String
  | .UserNotFound => "user not found"
  | .NilUUIDNotAllowed => "nil UUID is not allowed"
  | .NewUserWithID => "new user can't have a predefined ID"
  | .InvalidUserInputData => "input user data is invalid"
  | .InvalidPagination => "invalid pagination"
  | .InvalidFilter => "invalid filter"
  | .GormRecordNotFound => "record not found"

/-- A non-nil Go `error` value. `pkgVar` is one of the package-level variables;
`errorsNew t` is a value made by `errors.New(t)` where the code runs (never identical to a
package-level variable); `wrapped inner detail` is `fmt.Errorf("%w: %s", inner, detail)`,
again a value of its own that unwraps to `inner`. -/
inductive GoError where
  | pkgVar (v : ErrVar)
  | errorsNew (text : String)
  | wrapped (inner : GoError) (detail : String)
  deriving DecidableEq, Repr

def ErrUserNotFound : GoError := .pkgVar .UserNotFound
def ErrNilUUIDNotAllowed : GoError := .pkgVar .NilUUIDNotAllowed
def ErrNewUserWithID : GoError := .pkgVar .NewUserWithID
def ErrInvalidUserInputData : GoError := .pkgVar .InvalidUserInputData
def ErrInvalidPagination : GoError := .pkgVar .InvalidPagination
def ErrInvalidFilter : GoError := .pkgVar .InvalidFilter

/-- The method `Error()`: the text of an error. -/
def GoError.Error : GoError → String
  | .pkgVar v => v.text
  | .errorsNew t => t
  | .wrapped inner detail => inner.Error ++ ": " ++ detail

/-- The function `errors.Is(err, target)`: `err` or one of the errors it wraps is `target`. -/
def errors.Is : GoError → GoError → Bool
  | .wrapped inner detail, target =>
    decide (GoError.wrapped inner detail = target) || errors.Is inner target
  | e, target => decide (e = target)

/-- The method `User.Validate` (strict mode). -/
def User.Validate (lib : Stdlib) (u : User) : Option GoError :=
  let emailErr := !lib.mailParseAddressOk u.Email
  if len u.FirstName < 2 then some (.errorsNew "first name is too short")
  else if len u.LastName < 2 then some (.errorsNew "last name is too short")
  else if len u.Nickname < 3 then some (.errorsNew "nickname is too short")
  else if len u.Country ≠ 2 then some (.errorsNew "country code must be 2 letters")
  else if emailErr then some (.errorsNew "invalid email address")
  else none

/-- The method `User.ValidateIfNotEmpty` (partial mode). -/
def User.ValidateIfNotEmpty (u : User) : Option GoError :=
  if u.FirstName ≠ "" ∧ len u.FirstName < 2 then
    some (.errorsNew "first_name must be at least 2 characters")
  else if u.LastName ≠ "" ∧ len u.LastName < 2 then
    some (.errorsNew "last_name must be at least 2 characters")
  else if u.Nickname ≠ "" ∧ len u.Nickname < 2 then
    some (.errorsNew "nickname must be at least 2 characters")
  else if u.Email ≠ "" ∧ len u.Email < 2 then
    some (.errorsNew "email must be at least 2 characters")
  else if u.Country ≠ "" ∧ len u.Country ≠ 2 then
    some (.errorsNew "country must have exactly 2 characters")
  else none

/-- The struct `common.Pagination`; a Go `int` is kept as an integer. -/
structure Pagination where
  Page : Int
  PageSize : Int
  deriving DecidableEq, Repr

/-- The method `Pagination.Validate`. -/
def Pagination.Validate (p : Pagination) : Option GoError :=
  if p.Page < 0 then some (.errorsNew "page must be a positive number")
  else if p.PageSize < 0 then some (.errorsNew "pagesize must be a positive number")
  else none

/-! ## Collaborators of the service (`internal/user/service.go`) -/

/-- One call on a collaborator, with its arguments. -/
inductive Call where
  | findByID (id : UUID)
  | list (pagination : Pagination) (filter : Option User)
  | create (user : User) (password : String)
  | update (id : UUID) (user : User)
  | updatePassword (id : UUID) (password : String)
  | deleteByID (id : UUID)
  | publishCreated (userID : UUID) (userChanges : Option User)
  | publishDeleted (userID : UUID)
  | publishUpdated (userID : UUID) (userChanges : Option User)
  | publishPasswordChanged (userID : UUID)
  deriving DecidableEq, Repr

/-- Whether a call is one on the repository (the persistence gateway). -/
def Call.isRepository : Call → Bool
  | .findByID _ | .list _ _ | .create _ _ | .update _ _ | .updatePassword _ _ | .deleteByID _ => true
  | _ => false

/-- Whether a call is one on the event publisher. -/
def Call.isPublisher (c : Call) : Bool := !c.isRepository

/-- The interface `repository`: each method reads and updates the state `σ` behind it. -/
structure repository (σ : Type) where
  findByID : σ → UUID → (Option User × Option GoError) × σ
  list : σ → Pagination → Option User → (List User × Option GoError) × σ
  create : σ → User → String → (Option User × Option GoError) × σ
  update : σ → UUID → User → (Option User × Option GoError) × σ
  updatePassword : σ → UUID → String → Option GoError × σ
  deleteByID : σ → UUID → Option GoError × σ

/-- The interface `eventPublisher`: each method reads and updates the state `π` behind it. -/
structure eventPublisher (π : Type) where
  publishCreated : π → UUID → Option User → Option GoError × π
  publishDeleted : π → UUID → Option GoError × π
  publishUpdated : π → UUID → Option User → Option GoError × π
  publishPasswordChanged : π → UUID → Option GoError × π

/-- The struct `Service`. -/
structure Service (σ π : Type) where
  repository : repository σ
  eventPublisher : eventPublisher π

/-- What a service method runs in: the state behind each collaborator and the log of the
calls made on them so far, oldest first. -/
structure World (σ π : Type) where
  db : σ
  mq : π
  calls : List Call
  deriving DecidableEq

/-- How a Go function call ends: it returns, or it faults at run time. -/
inductive Outcome (α : Type) where
  | returned (a : α)
  | panicked
  deriving DecidableEq, Repr

/-- Record a repository call and its effect on the repository state. -/
def World.repo {σ π α : Type} (w : World σ π) (c : Call) (r : α × σ) : α × World σ π :=
  (r.1, { w with db := r.2, calls := w.calls ++ [c] })

/-- Record a publisher call and its effect on the publisher state. -/
def World.pub {σ π α : Type} (w : World σ π) (c : Call) (r : α × π) : α × World σ π :=
  (r.1, { w with mq := r.2, calls := w.calls ++ [c] })

/-- The error `fmt.Errorf("%w: %s", base, detail)`. -/
def fmtErrorf (base : GoError) (detail : String) : GoError := .wrapped base detail

/-- The assignment `user.Country = strings.ToUpper(user.Country)` on the method's copy of
the user. -/
def User.upperCountry (lib : Stdlib) (user : User) : User :=
  { user with Country := strings.ToUpper lib user.Country }

/-! ## The service methods -/

/-- The method `Service.Create`. -/
def Service.Create {σ π : Type} (lib : Stdlib) (s : Service σ π) (w : World σ π)
    (user : User) (password : String) : Outcome (Option User × Option GoError) × World σ π :=
  if user.ID ≠ uuid.Nil then
    (.returned (none, some ErrNewUserWithID), w)
  else
    match user.Validate lib with
    | some err => (.returned (none, some (fmtErrorf ErrInvalidUserInputData err.Error)), w)
    | none =>
      let user := user.upperCountry lib
      let pass := encryptPass password
      match w.repo (.create user pass) (s.repository.create w.db user pass) with
      | ((newUser, none), w1) =>
        -- `newUser.ID` is evaluated for the call: a nil `newUser` faults here
        match newUser with
        | none => (.panicked, w1)
        | some u =>
          let w2 := (w1.pub (.publishCreated u.ID newUser)
            (s.eventPublisher.publishCreated w1.mq u.ID newUser)).2
          (.returned (newUser, none), w2)
      | ((newUser, some err), w1) => (.returned (newUser, some err), w1)

/-- The method `Service.Get`. -/
def Service.Get {σ π : Type} (s : Service σ π) (w : World σ π) (id : UUID) :
    Outcome (Option User × Option GoError) × World σ π :=
  if id = uuid.Nil then
    (.returned (none, some ErrNilUUIDNotAllowed), w)
  else
    let r := w.repo (.findByID id) (s.repository.findByID w.db id)
    (.returned r.1, r.2)

/-- The first half of `Service.Update` after validation: the profile step. It yields the
values of the local variables `updatedUser` and `err`. -/
def Service.updateProfile {σ π : Type} (s : Service σ π) (w : World σ π) (id : UUID)
    (user : User) : (Option User × Option GoError) × World σ π :=
  if user ≠ emptyUser then
    match w.repo (.update id user) (s.repository.update w.db id user) with
    | ((updatedUser, none), w1) =>
      let w2 := (w1.pub (.publishUpdated id updatedUser)
        (s.eventPublisher.publishUpdated w1.mq id updatedUser)).2
      ((updatedUser, none), w2)
    | ((updatedUser, some err), w1) => ((updatedUser, some err), w1)
  else
    ((none, none), w)

/-- The method `Service.Update`. -/
def Service.Update {σ π : Type} (lib : Stdlib) (s : Service σ π) (w : World σ π) (id : UUID)
    (user : User) (password : String) : Outcome (Option User × Option GoError) × World σ π :=
  if id = uuid.Nil then
    (.returned (none, some ErrNilUUIDNotAllowed), w)
  else
    match user.ValidateIfNotEmpty with
    | some err => (.returned (none, some (fmtErrorf ErrInvalidUserInputData err.Error)), w)
    | none =>
      let user := if user.Country ≠ "" then user.upperCountry lib else user
      match s.updateProfile w id user with
      | ((updatedUser, err), w1) =>
        if password = "" then
          (.returned (updatedUser, err), w1)
        else
          let pass := encryptPass password
          match w1.repo (.updatePassword id pass) (s.repository.updatePassword w1.db id pass) with
          | (none, w2) =>
            let w3 := (w2.pub (.publishPasswordChanged id)
              (s.eventPublisher.publishPasswordChanged w2.mq id)).2
            (.returned (updatedUser, none), w3)
          | (some err2, w2) => (.returned (updatedUser, some err2), w2)

/-- The method `Service.Delete`; the value returned is its `error`. -/
def Service.Delete {σ π : Type} (s : Service σ π) (w : World σ π) (id : UUID) :
    Outcome (Option GoError) × World σ π :=
  if id = uuid.Nil then
    (.returned (some ErrNilUUIDNotAllowed), w)
  else
    match w.repo (.deleteByID id) (s.repository.deleteByID w.db id) with
    | (none, w1) =>
      let w2 := (w1.pub (.publishDeleted id) (s.eventPublisher.publishDeleted w1.mq id)).2
      (.returned none, w2)
    | (some err, w1) => (.returned (some err), w1)

/-- The method `Service.List`. The filter is a pointer; `ValidateIfNotEmpty` has a value
receiver, so calling it through a nil pointer faults. -/
def Service.List {σ π : Type} (s : Service σ π) (w : World σ π) (pagination : Pagination)
    (filter : Option User) : Outcome (List User × Option GoError) × World σ π :=
  match pagination.Validate with
  | some err => (.returned ([], some (fmtErrorf ErrInvalidPagination err.Error)), w)
  | none =>
    match filter with
    | none => (.panicked, w)
    | some f =>
      match f.ValidateIfNotEmpty with
      | some err => (.returned ([], some (fmtErrorf ErrInvalidFilter err.Error)), w)
      | none =>
        let r := w.repo (.list pagination filter) (s.repository.list w.db pagination filter)
        (.returned r.1, r.2)

/-- The calls on the repository in the log, in order. -/
def World.repositoryCalls {σ π : Type} (w : World σ π) : List Call :=
  w.calls.filter Call.isRepository

/-- The calls on the event publisher in the log, in order. -/
def World.publisherCalls {σ π : Type} (w : World σ π) : List Call :=
  w.calls.filter Call.isPublisher

/-- What the caller and the repository observe of a run of a service method: the outcome
(the values returned, or the fault), the state left behind the repository, and the calls
made on the repository. -/
def repositoryView {σ π α : Type} (run : Outcome α × World σ π) : Outcome α × σ × List Call :=
  (run.1, run.2.db, run.2.repositoryCalls)

/-! ## The request handler (`pkg/user/handler.go`) -/

/-- Modelled from the spec: the generated type `api.UserWithPassword` is not among the
sources; these are the fields `Handler.Create` reads, `Password` being a pointer. -/
structure api.UserWithPassword where
  FirstName : String
  LastName : String
  Nickname : String
  Email : String
  Country : String
  Password : Option String
  deriving DecidableEq, Repr

/-- Modelled from the spec: the generated type `api.UpdateUserWithPassword` is not among
the sources; these are the fields `Handler.UpdateByID` reads, all of them pointers. -/
structure api.UpdateUserWithPassword where
  FirstName : Option String
  LastName : Option String
  Nickname : Option String
  Email : Option String
  Country : Option String
  Password : Option String
  deriving DecidableEq, Repr

/-- Modelled from the spec: the generated type `api.ListParams` is not among the sources;
these are the fields `getListPagination` and `getListFilter` read, all of them pointers. -/
structure api.ListParams where
  Page : Option Int
  Pagesize : Option Int
  FirstName : Option String
  LastName : Option String
  Nickname : Option String
  Email : Option String
  Country : Option String
  deriving DecidableEq, Repr

/-- Modelled from the spec: the generated type `api.UserResponse` is not among the sources;
these are the fields `toUserResponse` fills. -/
structure api.UserResponse where
  Id : UUID
  FirstName : String
  LastName : String
  Nickname : String
  Email : String
  Country : String
  CreatedAt : Option Time
  UpdatedAt : Option Time
  deriving DecidableEq, Repr

/-- The interface `userService` of handler.go, over the state `ω` its methods run in. -/
structure userService (ω : Type) where
  Create : ω → User → String → Outcome (Option User × Option GoError) × ω
  Get : ω → UUID → Outcome (Option User × Option GoError) × ω
  Update : ω → UUID → User → String → Outcome (Option User × Option GoError) × ω
  Delete : ω → UUID → Outcome (Option GoError) × ω
  List : ω → Pagination → Option User → Outcome (List User × Option GoError) × ω

/-- The struct `Handler`; its `timeout` only bounds the context handed to the service. -/
structure Handler (ω : Type) where
  userSvc : userService ω

/-- The `Service` seen through the interface `userService`, as `NewHandler` installs it. -/
def Service.asUserService {σ π : Type} (lib : Stdlib) (s : Service σ π) :
    userService (World σ π) :=
  { Create := fun w user password => s.Create lib w user password,
    Get := fun w id => s.Get w id,
    Update := fun w id user password => s.Update lib w id user password,
    Delete := fun w id => s.Delete w id,
    List := fun w pagination filter => s.List w pagination filter }

/-- What a handler method hands back to the framework: an `*echo.HTTPError` made by
`echo.NewHTTPError(code, message)`, or the response written by `ctx.JSON` or
`ctx.NoContent` (writing is taken to succeed). -/
inductive Response where
  | httpError (code : Nat) (message : String)
  | jsonUser (code : Nat) (body : api.UserResponse)
  | jsonUsers (code : Nat) (body : List api.UserResponse)
  | noContent (code : Nat)
  deriving DecidableEq, Repr

def http.StatusOK : Nat := 200
def http.StatusCreated : Nat := 201
def http.StatusNoContent : Nat := 204
def http.StatusBadRequest : Nat := 400
def http.StatusNotFound : Nat := 404
def http.StatusInternalServerError : Nat := 500

/-- The status code a response carries. -/
def Response.status : Response → Nat
  | .httpError code _ => code
  | .jsonUser code _ => code
  | .jsonUsers code _ => code
  | .noContent code => code

/-- The function `toUserResponse` on a non-nil pointer; callers that pass a nil pointer
fault on its first field access. -/
def toUserResponse (u : User) : api.UserResponse :=
  { Id := u.ID, FirstName := u.FirstName, LastName := u.LastName, Nickname := u.Nickname,
    Email := u.Email, Country := u.Country, CreatedAt := some u.CreatedAt,
    UpdatedAt := u.UpdatedAt }

/-- The function `getListPagination`. -/
def getListPagination (p : api.ListParams) : Pagination :=
  { Page := match p.Page with
      | some page => page
      | none => 0,
    PageSize := match p.Pagesize with
      | some size => size
      | none => 0 }

/-- The value of a string field after `if ptr != nil { field = *ptr }` on a zero field. -/
def derefOrEmpty : Option String → String
  | some v => v
  | none => ""

/-- The function `getListFilter`. -/
def getListFilter (p : api.ListParams) : User :=
  { emptyUser with
    FirstName := derefOrEmpty p.FirstName, LastName := derefOrEmpty p.LastName,
    Nickname := derefOrEmpty p.Nickname, Email := derefOrEmpty p.Email,
    Country := derefOrEmpty p.Country }

/-- The method `Handler.List`; the `switch err` compares the error value itself with the
package-level variables. -/
def Handler.List {ω : Type} (h : Handler ω) (w : ω) (params : api.ListParams) :
    Outcome Response × ω :=
  let pagination := getListPagination params
  let filter := getListFilter params
  match h.userSvc.List w pagination (some filter) with
  | (.panicked, w1) => (.panicked, w1)
  | (.returned (_, some err), w1) =>
    if err = ErrInvalidPagination ∨ err = ErrInvalidFilter then
      (.returned (.httpError http.StatusBadRequest err.Error), w1)
    else
      (.returned (.httpError http.StatusInternalServerError err.Error), w1)
  | (.returned (results, none), w1) =>
    (.returned (.jsonUsers http.StatusOK (results.map toUserResponse)), w1)

/-- The method `Handler.Create`. `bound` is what `ctx.Bind(&up)` left: an error, or the
pointer `up`, which stays nil when the request has no body. -/
def Handler.Create {ω : Type} (h : Handler ω) (w : ω)
    (bound : Except GoError (Option api.UserWithPassword)) : Outcome Response × ω :=
  match bound with
  | .error err => (.returned (.httpError http.StatusBadRequest err.Error), w)
  | .ok none => (.panicked, w)
  | .ok (some up) =>
    let userIn : User :=
      { emptyUser with
        FirstName := up.FirstName, LastName := up.LastName, Nickname := up.Nickname,
        Email := up.Email, Country := up.Country }
    let pass := derefOrEmpty up.Password
    match h.userSvc.Create w userIn pass with
    | (.panicked, w1) => (.panicked, w1)
    | (.returned (_, some err), w1) =>
      if err = ErrNewUserWithID ∨ err = ErrInvalidUserInputData then
        (.returned (.httpError http.StatusBadRequest err.Error), w1)
      else
        (.returned (.httpError http.StatusInternalServerError err.Error), w1)
    | (.returned (none, none), w1) => (.panicked, w1)
    | (.returned (some u, none), w1) =>
      (.returned (.jsonUser http.StatusCreated (toUserResponse u)), w1)

/-- The method `Handler.DeleteByID`. -/
def Handler.DeleteByID {ω : Type} (h : Handler ω) (w : ω) (id : UUID) : Outcome Response × ω :=
  match h.userSvc.Delete w id with
  | (.panicked, w1) => (.panicked, w1)
  | (.returned (some err), w1) =>
    if err = ErrNilUUIDNotAllowed then
      (.returned (.httpError http.StatusBadRequest err.Error), w1)
    else
      (.returned (.httpError http.StatusInternalServerError err.Error), w1)
  | (.returned none, w1) => (.returned (.noContent http.StatusNoContent), w1)

/-- The method `Handler.GetByID`. -/
def Handler.GetByID {ω : Type} (h : Handler ω) (w : ω) (id : UUID) : Outcome Response × ω :=
  match h.userSvc.Get w id with
  | (.panicked, w1) => (.panicked, w1)
  | (.returned (_, some err), w1) =>
    if err = ErrUserNotFound then
      (.returned (.httpError http.StatusNotFound err.Error), w1)
    else if err = ErrNilUUIDNotAllowed then
      (.returned (.httpError http.StatusBadRequest err.Error), w1)
    else
      (.returned (.httpError http.StatusInternalServerError err.Error), w1)
  | (.returned (none, none), w1) => (.panicked, w1)
  | (.returned (some u, none), w1) => (.returned (.jsonUser http.StatusOK (toUserResponse u)), w1)

/-- The method `Handler.UpdateByID`. `bound` is what `ctx.Bind(&up)` left, as for
`Handler.Create`. -/
def Handler.UpdateByID {ω : Type} (h : Handler ω) (w : ω) (id : UUID)
    (bound : Except GoError (Option api.UpdateUserWithPassword)) : Outcome Response × ω :=
  match bound with
  | .error err => (.returned (.httpError http.StatusBadRequest err.Error), w)
  | .ok none => (.panicked, w)
  | .ok (some up) =>
    let userIn : User :=
      { emptyUser with
        FirstName := derefOrEmpty up.FirstName, LastName := derefOrEmpty up.LastName,
        Nickname := derefOrEmpty up.Nickname, Email := derefOrEmpty up.Email,
        Country := derefOrEmpty up.Country }
    let password := derefOrEmpty up.Password
    match h.userSvc.Update w id userIn password with
    | (.panicked, w1) => (.panicked, w1)
    | (.returned (_, some err), w1) =>
      if err = ErrNilUUIDNotAllowed ∨ err = ErrInvalidUserInputData then
        (.returned (.httpError http.StatusBadRequest err.Error), w1)
      else
        (.returned (.httpError http.StatusInternalServerError err.Error), w1)
    | (.returned (none, none), w1) => (.panicked, w1)
    | (.returned (some u, none), w1) => (.returned (.jsonUser http.StatusOK (toUserResponse u)), w1)

/-! ## Concrete inputs: the fixtures of `service_test.go` -/

/-- The standard library as far as the concrete inputs below use it: `net/mail` accepts the
two well-formed addresses of the test fixtures and no other string that occurs below, and no
fixture holds a rune above ASCII. -/
def fixtureStdlib : Stdlib :=
  { mailParseAddressOk := fun s => decide (s = "johndoe@email.com") || decide (s = "test@test.com"),
    unicodeToUpper := fun r => r }

/-- The fixture `validUser` of service_test.go. -/
def validUser : User :=
  { emptyUser with
    FirstName := "john", LastName := "doe", Nickname := "johndoe",
    Email := "johndoe@email.com", Country := "US" }

/-- A repository double in the manner of `mockRepository`: it keeps no state, answers the
methods that return a user with `userRes` and those that return only an error with `errRes`. -/
def mockRepository (userRes : Option User × Option GoError) (errRes : Option GoError) :
    repository Unit :=
  { findByID := fun _ _ => (userRes, ()),
    list := fun _ _ _ => (([], userRes.2), ()),
    create := fun _ _ _ => (userRes, ()),
    update := fun _ _ _ => (userRes, ()),
    updatePassword := fun _ _ _ => (errRes, ()),
    deleteByID := fun _ _ => (errRes, ()) }

/-- A publisher double in the manner of `mockEventPublisher`: every method returns `err`. -/
def mockEventPublisher (err : Option GoError) : eventPublisher Unit :=
  { publishCreated := fun _ _ _ => (err, ()),
    publishDeleted := fun _ _ => (err, ()),
    publishUpdated := fun _ _ _ => (err, ()),
    publishPasswordChanged := fun _ _ => (err, ()) }

/-- A service over the two doubles. -/
def mockService (userRes : Option User × Option GoError) (errRes pubErr : Option GoError) :
    Service Unit Unit :=
  { repository := mockRepository userRes errRes, eventPublisher := mockEventPublisher pubErr }

/-- The handler over a service, as `NewHandler` builds it. -/
def mockHandler (s : Service Unit Unit) : Handler (World Unit Unit) :=
  { userSvc := s.asUserService fixtureStdlib }

/-- The world before any call. -/
def World.fresh : World Unit Unit := { db := (), mq := (), calls := [] }

/-- The digest `testpwdHash` of service_test.go. -/
def testpwdHash : String := "a85b6a20813c31a8b1b3f3618da796271c9aa293b3f809873053b21aec501087"

/-! ## Predicates that state the specification -/

/-- The sixteen characters `0-9a-f` of lowercase hexadecimal notation. -/
def hexChars : List Char := "0123456789abcdef".data

/-- The specification's "uppercase letter", read as a letter `A` to `Z`. -/
def isUppercaseLetter (c : Char) : Bool := decide (65 ≤ c.toNat ∧ c.toNat ≤ 90)

/-- A letter `A` to `Z` or `a` to `z`. -/
def isAsciiLetter (c : Char) : Bool :=
  decide ((65 ≤ c.toNat ∧ c.toNat ≤ 90) ∨ (97 ≤ c.toNat ∧ c.toNat ≤ 122))

/-- The specification's "exactly 2 uppercase letters". -/
def twoUppercaseLetters (s : String) : Bool :=
  decide (s.data.length = 2) && s.data.all isUppercaseLetter

/-- A string of exactly two letters `A` to `Z` or `a` to `z`. -/
def twoAsciiLetters (s : String) : Bool :=
  decide (s.data.length = 2) && s.data.all isAsciiLetter

/-! ## Pagination arithmetic (`internal/common/model.go`) -/

/-- The value a Go `int` (64 bits, two's complement) holds after an arithmetic result `x`:
`x` itself when it fits, else `x` wrapped around. -/
def wrapInt64 (x : Int) : Int :=
  (x + 9223372036854775808) % 18446744073709551616 - 9223372036854775808

/-- Whether an integer is a value of a Go `int`. -/
def isInt64 (x : Int) : Prop := -9223372036854775808 ≤ x ∧ x < 9223372036854775808

/-- The method `Pagination.GetOffset`: the product in Go's `int`. -/
def Pagination.GetOffset (p : Pagination) : Int := wrapInt64 (p.Page * p.PageSize)

/-- The method `Pagination.GetLimit`. -/
def Pagination.GetLimit (p : Pagination) : Int :=
  if p.PageSize = 0 then 10 else p.PageSize

/-! ## The correlation id (`internal/common`, `pkg/server/middlewares.go`) -/

/-- The method `UUID.String`: 32 lowercase hexadecimal digits in groups of 8, 4, 4, 4 and 12. -/
def UUID.String (u : UUID) : String :=
  let hex := (List.range 32).map (fun i => hexDigit (u.val / 16 ^ (31 - i) % 16))
  String.mk (hex.take 8 ++ ['-'] ++ (hex.drop 8).take 4 ++ ['-'] ++ (hex.drop 12).take 4
    ++ ['-'] ++ (hex.drop 16).take 4 ++ ['-'] ++ hex.drop 20)

/-- A Go `interface{}` value, as far as the type switches of helpers.go tell values apart. -/
inductive AnyValue where
  | nil
  | string (s : String)
  | uuid (u : UUID)
  | other
  deriving DecidableEq, Repr

/-- The constant `common.CorrelationID`. -/
def common.CorrelationID : String := "correlation_id"

/-- The constant `echo.HeaderXRequestID` of the echo framework. -/
def echo.HeaderXRequestID : String := "X-Request-Id"

/-- The constant `echo.HeaderXCorrelationID` of the echo framework. -/
def echo.HeaderXCorrelationID : String := "X-Correlation-Id"

/-- The first value stored under a key in a list of pairs. -/
def lookupKey {α : Type} (key : String) : List (String × α) → Option α
  | [] => none
  | (k, v) :: rest => if k = key then some v else lookupKey key rest

/-- A non-nil `context.Context`: the pairs attached with `context.WithValue`, the latest
first. Deadlines and cancellation are not part of the embedding. -/
structure Context where
  values : List (String × AnyValue)
  deriving DecidableEq, Repr

/-- The method `Context.Value`. -/
def Context.Value (ctx : Context) (key : String) : AnyValue :=
  match lookupKey key ctx.values with
  | some v => v
  | none => .nil

/-- The function `context.WithValue`. -/
def context.WithValue (parent : Context) (key : String) (val : AnyValue) : Context :=
  { values := (key, val) :: parent.values }

/-- A non-nil `echo.Context`: the headers of the request (canonical names), the context of
the request, and the store behind `Get` and `Set`. -/
structure EchoContext where
  requestHeader : List (String × String)
  requestContext : Context
  store : List (String × AnyValue)
  deriving DecidableEq, Repr

/-- The call `ctx.Request().Header.Get(key)`: the empty string when the header is absent. -/
def EchoContext.headerGet (ctx : EchoContext) (key : String) : String :=
  match lookupKey key ctx.requestHeader with
  | some v => v
  | none => ""

/-- The call `ctx.Request().Header.Set(key, value)`. -/
def EchoContext.headerSet (ctx : EchoContext) (key value : String) : EchoContext :=
  { ctx with requestHeader := (key, value) :: ctx.requestHeader }

/-- The method `echo.Context.Get`: nil when nothing is stored under the key. -/
def EchoContext.Get (ctx : EchoContext) (key : String) : AnyValue :=
  match lookupKey key ctx.store with
  | some v => v
  | none => .nil

/-- The method `echo.Context.Set`. -/
def EchoContext.Set (ctx : EchoContext) (key : String) (val : AnyValue) : EchoContext :=
  { ctx with store := (key, val) :: ctx.store }

/-- The function `common.GetEchoCorrelationID`; `none` is the nil `echo.Context`. -/
def common.GetEchoCorrelationID (ctx : Option EchoContext) : String :=
  match ctx with
  | none => ""
  | some c =>
    match c.Get echo.HeaderXCorrelationID with
    | .string v => v
    | .uuid v => v.String
    | _ => ""

/-- The function `common.GetCorrelationID`; `none` is the nil `context.Context`. -/
def common.GetCorrelationID (ctx : Option Context) : String :=
  match ctx with
  | none => ""
  | some c =>
    match c.Value common.CorrelationID with
    | .string v => v
    | .uuid v => v.String
    | _ => ""

/-- The `RequestIDHandler` of `RequestIDMiddleware`; `newString` is what `uuid.NewString()`
returns when it is called. The effect on the echo context is the result. -/
def RequestIDHandler (newString : String) (ctx : EchoContext) : EchoContext :=
  let cID := ctx.headerGet echo.HeaderXRequestID
  if cID ≠ "" then
    ctx.Set common.CorrelationID (.string cID)
  else
    (ctx.headerSet echo.HeaderXRequestID newString).Set common.CorrelationID (.string newString)

/-- The method `Handler.contextWithTimeout`, without the deadline: the context handed to
the service. -/
def Handler.contextWithTimeout (ctx : EchoContext) : Context :=
  context.WithValue ctx.requestContext common.CorrelationID
    (.string (common.GetEchoCorrelationID (some ctx)))

/-! ## The event publisher (`internal/user/eventpublisher.go`) -/

/-- The variable `UserEventTypeCreated`; the type `UserEventType` is a string. -/
def UserEventTypeCreated : String := "USER_CREATED"

/-- The variable `UserEventTypeUpdated`. -/
def UserEventTypeUpdated : String := "USER_UPDATED"

/-- The variable `UserEventTypePasswordChanged`. -/
def UserEventTypePasswordChanged : String := "USER_PASSWORD_CHANGED"

/-- The variable `UserEventTypeDeleted`. -/
def UserEventTypeDeleted : String := "USER_DELETED"

/-- The struct `UserEvent`; its field `Type` is `EventType` here, and the unexported
`context` field, which no code sets, is left out. -/
structure UserEvent where
  EventType : String
  UserID : UUID
  UserChanges : Option User
  Time : Time
  deriving DecidableEq, Repr

/-- The struct `amqp.Publishing`, with the three fields `publishEvent` sets. -/
structure amqp.Publishing where
  CorrelationId : String
  ContentType : String
  Body : String
  deriving DecidableEq, Repr

/-- The constant `jsonType`. -/
def jsonType : String := "application/json"

/-- The struct `RmqEventPublisher` over the state `χ` of its channel, together with the two
library calls `publishEvent` makes: `json.Marshal` on the event and
`channel.PublishWithContext` with exchange, routing key and message (its two flags are
false in the only call). -/
structure RmqEventPublisher (χ : Type) where
  exchange : String
  jsonMarshal : UserEvent → Except GoError String
  publishWithContext : χ → String → String → amqp.Publishing → Option GoError × χ

/-- The part of `publishEvent` after the event is built: marshal it and publish the
message. -/
def RmqEventPublisher.send {χ : Type} (e : RmqEventPublisher χ) (ch : χ)
    (ctx : Option Context) (event : UserEvent) : Option GoError × χ :=
  match e.jsonMarshal event with
  | .error err => (some err, ch)
  | .ok body =>
    e.publishWithContext ch e.exchange "#"
      { CorrelationId := common.GetCorrelationID ctx, ContentType := jsonType, Body := body }

/-- The method `RmqEventPublisher.publishEvent`; `now` is what `time.Now()` returns. -/
def RmqEventPublisher.publishEvent {χ : Type} (e : RmqEventPublisher χ) (ch : χ) (now : Time)
    (ctx : Option Context) (eventType : String) (userID : UUID) (userChanges : Option User) :
    Option GoError × χ :=
  e.send ch ctx
    { EventType := eventType, UserID := userID, UserChanges := userChanges, Time := now }

/-- The method `RmqEventPublisher.publishCreated`. -/
def RmqEventPublisher.publishCreated {χ : Type} (e : RmqEventPublisher χ) (ch : χ)
    (now : Time) (ctx : Option Context) (userID : UUID) (userChanges : Option User) :
    Option GoError × χ :=
  e.publishEvent ch now ctx UserEventTypeCreated userID userChanges

/-- The method `RmqEventPublisher.publishDeleted`. -/
def RmqEventPublisher.publishDeleted {χ : Type} (e : RmqEventPublisher χ) (ch : χ)
    (now : Time) (ctx : Option Context) (userID : UUID) : Option GoError × χ :=
  e.publishEvent ch now ctx UserEventTypeDeleted userID none

/-- The method `RmqEventPublisher.publishUpdated`. -/
def RmqEventPublisher.publishUpdated {χ : Type} (e : RmqEventPublisher χ) (ch : χ)
    (now : Time) (ctx : Option Context) (userID : UUID) (userChanges : Option User) :
    Option GoError × χ :=
  e.publishEvent ch now ctx UserEventTypeUpdated userID userChanges

/-- The method `RmqEventPublisher.publishPasswordChanged`. -/
def RmqEventPublisher.publishPasswordChanged {χ : Type} (e : RmqEventPublisher χ) (ch : χ)
    (now : Time) (ctx : Option Context) (userID : UUID) : Option GoError × χ :=
  e.publishEvent ch now ctx UserEventTypePasswordChanged userID none

/-! ## The repository over gorm (`internal/user/repository.go`) -/

/-- The variable `gorm.ErrRecordNotFound`. -/
def gorm.ErrRecordNotFound : GoError := .pkgVar .GormRecordNotFound

/-- The function `handleNotFoundError`; `errors.Is` on a nil error is false. -/
def handleNotFoundError (err : Option GoError) : Option GoError :=
  match err with
  | none => none
  | some e => if errors.Is e gorm.ErrRecordNotFound then some ErrUserNotFound else some e

/-- One `Where` clause of a query: `Where("<column> ILIKE ?", pattern)` or
`Where("<column>", value)`. -/
inductive Condition where
  | ilike (column pattern : String)
  | equals (column value : String)
  deriving DecidableEq, Repr

/-- The query `gormRepository.list` builds before `Find`. -/
structure Query where
  conditions : List Condition
  offset : Int
  limit : Int
  order : List String
  deriving DecidableEq, Repr

/-- The handle `*gorm.DB` as far as the repository uses it, over the state `δ` of the
database and its connection. `take` is `Take(&u, id)`, `find` is `Find(&users)` on a query,
`create` is `Create(&user)` (the user as the call leaves it, and `.Error`),
`updatePasswordColumn` is `Model(User{}).Where("id = ?", id).Update("password", password)`,
`updates` is `Model(&updatedUser).Clauses(clause.Returning{}).Where("id = ?", id).Updates(user)`
(the value left in `updatedUser`, and `.Error`), `delete` is `Delete(&User{}, id)`; `begin`,
`commit` and `rollback` are the three steps of `Transaction`. -/
structure gormDB (δ : Type) where
  take : δ → UUID → (Option User × Option GoError) × δ
  find : δ → Query → (List User × Option GoError) × δ
  create : δ → User → (User × Option GoError) × δ
  updatePasswordColumn : δ → UUID → String → Option GoError × δ
  updates : δ → UUID → User → (User × Option GoError) × δ
  delete : δ → UUID → Option GoError × δ
  begin : δ → Option GoError × δ
  commit : δ → Option GoError × δ
  rollback : δ → δ

/-- The variable `pgx.ErrTxCommitRollback` of the PostgreSQL driver, which `Commit` returns
when the server answers the commit of an aborted transaction with a rollback. -/
def pgx.ErrTxCommitRollback : GoError :=
  .errorsNew "commit unexpectedly resulted in rollback"

/-- An open transaction on PostgreSQL: the state of the database and its connection, and
whether a statement of the transaction has failed. PostgreSQL aborts a transaction at the
first statement that fails. -/
structure Tx (δ : Type) where
  state : δ
  aborted : Bool

/-- One statement run inside a transaction: the statement acts on the state, and an error
it reports (read off its result by `errorOf`) aborts the transaction. -/
def Tx.run {δ β : Type} (tx : Tx δ) (errorOf : β → Option GoError) (stmt : δ → β × δ) :
    β × Tx δ :=
  match stmt tx.state with
  | (b, d1) => (b, { state := d1, aborted := tx.aborted || (errorOf b).isSome })

/-- The method `gorm.DB.Transaction` of the library on PostgreSQL: begin, run the closure,
roll back when it returns an error, commit otherwise and return what the commit returns.
The commit of an aborted transaction is answered with a rollback, for which the driver
returns `pgx.ErrTxCommitRollback`. `vars` holds the variables the closure captures, before
and after. -/
def gormDB.Transaction {δ α : Type} (db : gormDB δ) (d : δ) (vars : α)
    (fc : Tx δ → α → (Option GoError × α) × Tx δ) : (Option GoError × α) × δ :=
  match db.begin d with
  | (some err, d1) => ((some err, vars), d1)
  | (none, d1) =>
    match fc { state := d1, aborted := false } vars with
    | ((some err, vars1), tx) => ((some err, vars1), db.rollback tx.state)
    | ((none, vars1), tx) =>
      if tx.aborted then
        ((some pgx.ErrTxCommitRollback, vars1), db.rollback tx.state)
      else
        match db.commit tx.state with
        | (err, d3) => ((err, vars1), d3)

/-- The function `updatePassword` on a transaction or database handle. -/
def updatePassword {δ : Type} (tx : gormDB δ) (d : δ) (id : UUID) (password : String) :
    Option GoError × δ :=
  match tx.updatePasswordColumn d id password with
  | (err, d1) => (handleNotFoundError err, d1)

/-- The method `gormRepository.findByID`. -/
def gormRepository.findByID {δ : Type} (db : gormDB δ) (d : δ) (id : UUID) :
    (Option User × Option GoError) × δ :=
  match db.take d id with
  | ((_, some err), d1) => ((none, handleNotFoundError (some err)), d1)
  | ((u, none), d1) => ((u, none), d1)

/-- The query of `gormRepository.list`: one clause per non-empty field of a non-nil filter,
then offset, limit and the two orderings. -/
def gormRepository.listQuery (lib : Stdlib) (pagination : Pagination) (filter : Option User) :
    Query :=
  let conditions : List Condition :=
    match filter with
    | none => []
    | some f =>
      (if f.FirstName ≠ "" then [.ilike "first_name" (f.FirstName ++ "%")] else [])
      ++ (if f.LastName ≠ "" then [.ilike "last_name" (f.LastName ++ "%")] else [])
      ++ (if f.Nickname ≠ "" then [.ilike "nickname" (f.Nickname ++ "%")] else [])
      ++ (if f.Email ≠ "" then [.ilike "email" (f.Email ++ "%")] else [])
      ++ (if f.Country ≠ "" then [.equals "country" (strings.ToUpper lib f.Country)] else [])
  { conditions := conditions, offset := pagination.GetOffset, limit := pagination.GetLimit,
    order := ["created_at desc", "email asc"] }

/-- The method `gormRepository.list`. -/
def gormRepository.list {δ : Type} (lib : Stdlib) (db : gormDB δ) (d : δ)
    (pagination : Pagination) (filter : Option User) : (List User × Option GoError) × δ :=
  match db.find d (gormRepository.listQuery lib pagination filter) with
  | ((_, some err), d1) => (([], some err), d1)
  | ((users, none), d1) => ((users, none), d1)

/-- The method `gormRepository.create`. The closure of the transaction captures `user`;
when `tx.Create(&user)` fails it returns nil, otherwise what `updatePassword` returns. -/
def gormRepository.create {δ : Type} (db : gormDB δ) (d : δ) (user : User)
    (password : String) : (Option User × Option GoError) × δ :=
  match db.Transaction d user (fun tx user =>
      match tx.run (fun r => r.2) (fun st => db.create st user) with
      | ((user1, some _), tx1) => ((none, user1), tx1)
      | ((user1, none), tx1) =>
        match tx1.run (fun err => err)
            (fun st => Faceit.updatePassword db st user1.ID password) with
        | (err, tx2) => ((err, user1), tx2)) with
  | ((err, user1), d1) => ((some user1, err), d1)

/-- The method `gormRepository.updatePassword`. -/
def gormRepository.updatePassword {δ : Type} (db : gormDB δ) (d : δ) (id : UUID)
    (password : String) : Option GoError × δ :=
  Faceit.updatePassword db d id password

/-- The method `gormRepository.update`. -/
def gormRepository.update {δ : Type} (db : gormDB δ) (d : δ) (id : UUID) (user : User) :
    (Option User × Option GoError) × δ :=
  match db.updates d id user with
  | ((updatedUser, err), d1) => ((some updatedUser, handleNotFoundError err), d1)

/-- The method `gormRepository.deleteByID`. -/
def gormRepository.deleteByID {δ : Type} (db : gormDB δ) (d : δ) (id : UUID) :
    Option GoError × δ :=
  db.delete d id

/-- The `gormRepository` seen through the interface `repository`, as `NewService` installs
it. -/
def gormRepository.asRepository {δ : Type} (lib : Stdlib) (db : gormDB δ) : repository δ :=
  { findByID := gormRepository.findByID db,
    list := gormRepository.list lib db,
    create := gormRepository.create db,
    update := gormRepository.update db,
    updatePassword := gormRepository.updatePassword db,
    deleteByID := gormRepository.deleteByID db }

/-! ## What a clause selects (PostgreSQL) -/

/-- Whether `f` accepts some suffix of the string. -/
def likeAnySuffix (f : List Char → Bool) : List Char → Bool
  | [] => f []
  | c :: t => f (c :: t) || likeAnySuffix f t

/-- The escape character of `LIKE` patterns, the backslash. -/
def likeEscape : Char := Char.ofNat 92

/-- The operator `LIKE` of PostgreSQL on a pattern and a string: `%` stands for any
sequence of characters, `_` for any single character, a backslash makes the character
after it stand for itself, any other character stands for itself; the pattern has to cover
the whole string. -/
def likeMatch : List Char → List Char → Bool
  | [], s => s.isEmpty
  | c :: p, s =>
    if c = '%' then likeAnySuffix (likeMatch p) s
    else if c = '_' then
      match s with
      | [] => false
      | _ :: t => likeMatch p t
    else if c = likeEscape then
      match p with
      | [] => false
      | d :: p2 =>
        match s with
        | [] => false
        | x :: t => decide (d = x) && likeMatch p2 t
    else
      match s with
      | [] => false
      | x :: t => decide (c = x) && likeMatch p t

/-- The characters of a string with case folded away, for comparisons that ignore case. -/
def foldCase (lib : Stdlib) (s : String) : List Char := (strings.ToUpper lib s).data

/-- The operator `ILIKE`: `LIKE` ignoring case. -/
def ilikeMatch (lib : Stdlib) (value pattern : String) : Bool :=
  likeMatch (foldCase lib pattern) (foldCase lib value)

/-- The column of the table `users` a field of `User` is stored in. -/
def User.column (u : User) (name : String) : String :=
  if name = "first_name" then u.FirstName
  else if name = "last_name" then u.LastName
  else if name = "nickname" then u.Nickname
  else if name = "email" then u.Email
  else if name = "country" then u.Country
  else ""

/-- Whether a clause selects a row. -/
def Condition.selects (lib : Stdlib) (row : User) : Condition → Bool
  | .ilike column pattern => ilikeMatch lib (row.column column) pattern
  | .equals column value => decide (row.column column = value)

/-- The specification's "starts with f, compared case-insensitively". -/
def startsWithIgnoringCase (lib : Stdlib) (value f : String) : Bool :=
  (foldCase lib f).isPrefixOf (foldCase lib value)

/-- The specification's "is (or wraps)": the error is `target`, or was made by
`fmt.Errorf` with `%w` from an error that is or wraps `target`. -/
inductive IsOrWraps (target : GoError) : GoError → Prop where
  | self : IsOrWraps target target
  | wrap (inner : GoError) (detail : String) :
      IsOrWraps target inner → IsOrWraps target (.wrapped inner detail)

/-! ## Concrete inputs for the repository and the middleware -/

/-- A database double over no state: `Create` fails with `insertErr` when one is given and
stores the user under the identifier 42 otherwise; every other statement and `begin`
succeed, and so does the `commit` of a transaction in which no statement failed; `find`
returns no rows. -/
def mockDB (insertErr : Option GoError) : gormDB Unit :=
  { take := fun _ _ => ((none, none), ()),
    find := fun _ _ => (([], none), ()),
    create := fun _ user =>
      match insertErr with
      | some err => ((user, some err), ())
      | none => (({ user with ID := ⟨42⟩ }, none), ()),
    updatePasswordColumn := fun _ _ _ => (none, ()),
    updates := fun _ _ user => ((user, none), ()),
    delete := fun _ _ => (none, ()),
    begin := fun _ => (none, ()),
    commit := fun _ => (none, ()),
    rollback := fun _ => () }

/-- A request that carries the header `X-Request-Id: abc`, before any middleware ran. -/
def requestWithId : EchoContext :=
  { requestHeader := [("X-Request-Id", "abc")], requestContext := { values := [] }, store := [] }

/-- A request without the header `X-Request-Id`, before any middleware ran. -/
def requestWithoutId : EchoContext :=
  { requestHeader := [], requestContext := { values := [] }, store := [] }

/-! ## Theorems -/

/-! ### Upper-casing the country -/

/-- The empty string is its own upper case. -/
theorem strings_ToUpper_empty (lib : Stdlib) : strings.ToUpper lib "" = "" := rfl

/-- Upper-casing maps rune by rune, so a non-empty string stays non-empty. -/
theorem strings_ToUpper_ne_empty (lib : Stdlib) (s : String) (h : s ≠ "") :
    strings.ToUpper lib s ≠ "" := by
  intro hc
  apply h
  have hd : (strings.ToUpper lib s).data = [] := by rw [hc]
  simp only [strings.ToUpper, List.map_eq_nil_iff] at hd
  exact String.ext hd

/-- The guarded assignment of `Service.Update` is the plain upper-casing of the country. -/
theorem upperCountry_if (lib : Stdlib) (user : User) :
    (if user.Country ≠ "" then user.upperCountry lib else user) = user.upperCountry lib := by
  by_cases h : user.Country = ""
  · cases user
    simp_all [User.upperCountry, strings_ToUpper_empty]
  · simp [h]

/-- The same fact with the test of the guard turned round. -/
theorem upperCountry_ite (lib : Stdlib) (user : User) :
    (if user.Country = "" then user else user.upperCountry lib) = user.upperCountry lib := by
  by_cases h : user.Country = ""
  · cases user
    simp_all [User.upperCountry, strings_ToUpper_empty]
  · simp [h]

/-- Upper-casing the country of a non-empty user value leaves it non-empty. -/
theorem upperCountry_ne_empty (lib : Stdlib) (user : User) (h : user ≠ emptyUser) :
    user.upperCountry lib ≠ emptyUser := by
  intro hc
  by_cases hcty : user.Country = ""
  · apply h
    rw [← hc]
    cases user
    simp_all [User.upperCountry, strings_ToUpper_empty]
  · have : strings.ToUpper lib user.Country = "" := by
      have := congrArg User.Country hc
      simpa [emptyUser, User.upperCountry] using this
    exact strings_ToUpper_ne_empty lib _ hcty this

/-! ### The update sequence -/

/-- Claim C1, evaluated where the code departs from it. With the identifier 1, the changes
`validUser`, the password "testpwd", a repository whose `update` fails with "user change
error" and whose `updatePassword` succeeds, `Service.Update` goes on after the failed profile
step: it calls `updatePassword` with the digest of the password, publishes the
password-changed event, and returns a nil user with a nil error. -/
theorem Update_runs_password_step_after_failed_profile_step :
    Service.Update fixtureStdlib
        (mockService (none, some (.errorsNew "user change error")) none none)
        World.fresh ⟨1⟩ validUser "testpwd"
      = (.returned (none, none),
          { db := (), mq := (),
            calls := [.update ⟨1⟩ validUser, .updatePassword ⟨1⟩ testpwdHash,
                      .publishPasswordChanged ⟨1⟩] }) := by
  decide

/-- Claim C2 as stated fails: a repository whose `update` hands back a non-nil user next to
its error, as `gormRepository.update` does with `&updatedUser`, makes `Service.Update`
return that user, not nil, together with the error (identifier 1, changes `validUser`,
empty password). -/
theorem Update_failed_profile_step_returns_gateway_user :
    (Service.Update fixtureStdlib
        (mockService (some emptyUser, some (.errorsNew "user change error")) none none)
        World.fresh ⟨1⟩ validUser "").1
      = .returned (some emptyUser, some (.errorsNew "user change error")) ∧
    ¬ ((Service.Update fixtureStdlib
        (mockService (some emptyUser, some (.errorsNew "user change error")) none none)
        World.fresh ⟨1⟩ validUser "").1
      = .returned (none, some (.errorsNew "user change error"))) := by
  decide

/-- Claim C2, amended: for every non-nil id, every non-empty user-changes value that passes
partial validation and the empty password, if the repository's `update` (called with the
country upper-cased) returns the user `u` together with the error `e`, then
`Service.Update` returns exactly `u` together with exactly `e`. -/
theorem Update_profile_failure_returns_gateway_pair {σ π : Type} (lib : Stdlib)
    (s : Service σ π) (w : World σ π) (id : UUID) (user : User) (u : Option User) (e : GoError)
    (db1 : σ) (hid : id ≠ uuid.Nil) (hval : user.ValidateIfNotEmpty = none)
    (hne : user ≠ emptyUser)
    (hgw : s.repository.update w.db id (user.upperCountry lib) = ((u, some e), db1)) :
    (Service.Update lib s w id user "").1 = .returned (u, some e) := by
  have hne2 := upperCountry_ne_empty lib user hne
  simp [Service.Update, hid, hval, upperCountry_ite, Service.updateProfile, World.repo, hgw, hne2]

/-- The amended claim C2 at the identifier 1 and the changes `validUser`, with a repository
whose `update` returns the zero user and the error "user change error". -/
theorem Update_profile_failure_returns_gateway_pair_witness :
    (⟨1⟩ : UUID) ≠ uuid.Nil ∧ validUser.ValidateIfNotEmpty = none ∧ validUser ≠ emptyUser ∧
    (mockService (some emptyUser, some (.errorsNew "user change error")) none none).repository.update
        World.fresh.db ⟨1⟩ (validUser.upperCountry fixtureStdlib)
      = ((some emptyUser, some (.errorsNew "user change error")), ()) ∧
    (Service.Update fixtureStdlib
        (mockService (some emptyUser, some (.errorsNew "user change error")) none none)
        World.fresh ⟨1⟩ validUser "").1
      = .returned (some emptyUser, some (.errorsNew "user change error")) :=
  ⟨by decide, by decide, by decide, rfl,
    Update_profile_failure_returns_gateway_pair fixtureStdlib _ World.fresh ⟨1⟩ validUser
      (some emptyUser) (.errorsNew "user change error") () (by decide) (by decide) (by decide) rfl⟩

/-! ### The handler on the errors of the service -/

/-- Claim C3, evaluated where the code departs from it. Over the real `Service`, a create
request with the one-letter first name "x", an update request with that first name, a list
request with page -1 and a list request with the first-name filter "x" are each rejected by
the service with a wrapped validation error, and the handler answers each with status 500:
its `switch err` compares the wrapped error itself with the package-level variables. -/
theorem Handler_answers_500_on_validation_failure :
    (Service.Create fixtureStdlib (mockService (none, none) none none) World.fresh
        { emptyUser with FirstName := "x", LastName := "doe", Nickname := "johndoe",
                         Email := "johndoe@email.com", Country := "US" } "testpwd").1
      = .returned (none, some (.wrapped ErrInvalidUserInputData "first name is too short")) ∧
    (Handler.Create (mockHandler (mockService (none, none) none none)) World.fresh
        (.ok (some { FirstName := "x", LastName := "doe", Nickname := "johndoe",
                     Email := "johndoe@email.com", Country := "US",
                     Password := some "testpwd" }))).1
      = .returned (.httpError 500 "input user data is invalid: first name is too short") ∧
    (Handler.UpdateByID (mockHandler (mockService (none, none) none none)) World.fresh ⟨1⟩
        (.ok (some { FirstName := some "x", LastName := none, Nickname := none, Email := none,
                     Country := none, Password := none }))).1
      = .returned (.httpError 500
          "input user data is invalid: first_name must be at least 2 characters") ∧
    (Handler.List (mockHandler (mockService (none, none) none none)) World.fresh
        { Page := some (-1), Pagesize := none, FirstName := none, LastName := none,
          Nickname := none, Email := none, Country := none }).1
      = .returned (.httpError 500 "invalid pagination: page must be a positive number") ∧
    (Handler.List (mockHandler (mockService (none, none) none none)) World.fresh
        { Page := none, Pagesize := none, FirstName := some "x", LastName := none,
          Nickname := none, Email := none, Country := none }).1
      = .returned (.httpError 500 "invalid filter: first_name must be at least 2 characters") := by
  decide

/-! ### Event publication -/

/-- Claim C4: for every input and every repository, whatever the two event publishers `p1`
and `p2` answer (nil or any error, from any state of their own), `Service.Create`,
`Service.Update` and `Service.Delete` end the same way (same returned values, or the same
fault), leave the same state behind the repository and make the same sequence of
repository calls. -/
theorem publication_failure_is_swallowed {σ π1 π2 : Type} (lib : Stdlib) (r : repository σ)
    (p1 : eventPublisher π1) (p2 : eventPublisher π2) (db : σ) (m1 : π1) (m2 : π2)
    (cs : List Call) (id : UUID) (user : User) (password : String) :
    repositoryView (Service.Create lib ⟨r, p1⟩ ⟨db, m1, cs⟩ user password)
      = repositoryView (Service.Create lib ⟨r, p2⟩ ⟨db, m2, cs⟩ user password) ∧
    repositoryView (Service.Update lib ⟨r, p1⟩ ⟨db, m1, cs⟩ id user password)
      = repositoryView (Service.Update lib ⟨r, p2⟩ ⟨db, m2, cs⟩ id user password) ∧
    repositoryView (Service.Delete ⟨r, p1⟩ ⟨db, m1, cs⟩ id)
      = repositoryView (Service.Delete ⟨r, p2⟩ ⟨db, m2, cs⟩ id) := by
  refine ⟨?_, ?_, ?_⟩
  · unfold Service.Create
    by_cases hid : user.ID = uuid.Nil
    · cases hv : user.Validate lib with
      | some err => simp [hid, repositoryView, World.repositoryCalls]
      | none =>
        rcases hc : r.create db (user.upperCountry lib) (encryptPass password) with ⟨⟨nu, e⟩, db1⟩
        cases nu <;> cases e <;>
          simp [hid, hc, repositoryView, World.repositoryCalls, World.repo, World.pub,
            Call.isRepository]
    · simp [hid, repositoryView, World.repositoryCalls]
  · unfold Service.Update
    by_cases hid : id = uuid.Nil
    · simp [hid, repositoryView, World.repositoryCalls]
    · cases hv : user.ValidateIfNotEmpty with
      | some err => simp [hid, repositoryView, World.repositoryCalls]
      | none =>
        simp only [hid, if_false, upperCountry_if, Service.updateProfile]
        by_cases hne : user.upperCountry lib = emptyUser
        · by_cases hp : password = ""
          · simp [hne, hp, repositoryView, World.repositoryCalls]
          · rcases hu : r.updatePassword db id (encryptPass password) with ⟨e2, db2⟩
            cases e2 <;>
              simp [hne, hp, hu, repositoryView, World.repositoryCalls, World.repo, World.pub,
                Call.isRepository]
        · rcases hc : r.update db id (user.upperCountry lib) with ⟨⟨nu, e⟩, db1⟩
          by_cases hp : password = ""
          · cases e <;>
              simp [hne, hp, hc, repositoryView, World.repositoryCalls, World.repo, World.pub,
                Call.isRepository]
          · rcases hu : r.updatePassword db1 id (encryptPass password) with ⟨e2, db2⟩
            cases e <;> cases e2 <;>
              simp [hne, hp, hc, hu, repositoryView, World.repositoryCalls, World.repo,
                World.pub, Call.isRepository]
  · unfold Service.Delete
    by_cases hid : id = uuid.Nil
    · simp [hid, repositoryView, World.repositoryCalls]
    · rcases hd : r.deleteByID db id with ⟨e, db1⟩
      cases e <;>
        simp [hid, hd, repositoryView, World.repositoryCalls, World.repo, World.pub,
          Call.isRepository]

/-! ### Fail-fast checks -/

/-- Claim C5: for the nil identifier, whatever the other arguments, `Service.Get`,
`Service.Update` and `Service.Delete` each return `ErrNilUUIDNotAllowed` and no user, and
leave the world as it was: no repository call, no publisher call. -/
theorem nil_identifier_is_rejected {σ π : Type} (lib : Stdlib) (s : Service σ π)
    (w : World σ π) (user : User) (password : String) :
    Service.Get s w uuid.Nil = (.returned (none, some ErrNilUUIDNotAllowed), w) ∧
    Service.Update lib s w uuid.Nil user password
      = (.returned (none, some ErrNilUUIDNotAllowed), w) ∧
    Service.Delete s w uuid.Nil = (.returned (some ErrNilUUIDNotAllowed), w) := by
  simp [Service.Get, Service.Update, Service.Delete]

/-- Claim C6: for every user whose id is set and every password, `Service.Create` returns a
nil user and exactly `ErrNewUserWithID`, whatever the other fields, and leaves the world as
it was: no repository call, no publisher call. -/
theorem Create_rejects_preset_identifier {σ π : Type} (lib : Stdlib) (s : Service σ π)
    (w : World σ π) (user : User) (password : String) (hid : user.ID ≠ uuid.Nil) :
    Service.Create lib s w user password = (.returned (none, some ErrNewUserWithID), w) := by
  simp [Service.Create, hid]

/-- Claim C6 at `validUser` with the identifier 7. -/
theorem Create_rejects_preset_identifier_witness :
    ({ validUser with ID := ⟨7⟩ } : User).ID ≠ uuid.Nil ∧
    Service.Create fixtureStdlib (mockService (none, none) none none) World.fresh
        { validUser with ID := ⟨7⟩ } "testpwd"
      = (.returned (none, some ErrNewUserWithID), World.fresh) :=
  ⟨by decide, Create_rejects_preset_identifier fixtureStdlib _ World.fresh
    { validUser with ID := ⟨7⟩ } "testpwd" (by decide)⟩

/-- Claim C7: for every user with unset id that fails `User.Validate` with the error `m`,
`Service.Create` returns a nil user and an error that `errors.Is` matches with
`ErrInvalidUserInputData` and whose text is "input user data is invalid: " followed by the
text of `m`; for every non-nil id and every user that fails `User.ValidateIfNotEmpty` with
the error `m`, `Service.Update` does the same; in both cases the world is left as it was: no
repository call, no publisher call. -/
theorem validation_failure_is_wrapped {σ π : Type} (lib : Stdlib) (s : Service σ π)
    (w : World σ π) :
    (∀ (user : User) (password : String) (m : GoError),
      user.ID = uuid.Nil → user.Validate lib = some m →
        ∃ err : GoError,
          Service.Create lib s w user password = (.returned (none, some err), w) ∧
          errors.Is err ErrInvalidUserInputData = true ∧
          err.Error = "input user data is invalid: " ++ m.Error) ∧
    (∀ (id : UUID) (user : User) (password : String) (m : GoError),
      id ≠ uuid.Nil → user.ValidateIfNotEmpty = some m →
        ∃ err : GoError,
          Service.Update lib s w id user password = (.returned (none, some err), w) ∧
          errors.Is err ErrInvalidUserInputData = true ∧
          err.Error = "input user data is invalid: " ++ m.Error) := by
  have htext : ∀ t : String,
      (fmtErrorf ErrInvalidUserInputData t).Error = "input user data is invalid: " ++ t := by
    intro t
    show ("input user data is invalid" ++ ": ") ++ t = _
    rfl
  constructor
  · intro user password m hid hv
    refine ⟨fmtErrorf ErrInvalidUserInputData m.Error, ?_, ?_, htext _⟩
    · simp [Service.Create, hid, hv]
    · simp [fmtErrorf, errors.Is, ErrInvalidUserInputData]
  · intro id user password m hid hv
    refine ⟨fmtErrorf ErrInvalidUserInputData m.Error, ?_, ?_, htext _⟩
    · simp [Service.Update, hid, hv]
    · simp [fmtErrorf, errors.Is, ErrInvalidUserInputData]

/-- Claim C7 at `validUser` with the nickname "x" (create) and at the identifier 1 and
`validUser` with the country "x" (update). -/
theorem validation_failure_is_wrapped_witness :
    (({ validUser with Nickname := "x" } : User).ID = uuid.Nil ∧
      ({ validUser with Nickname := "x" } : User).Validate fixtureStdlib
        = some (.errorsNew "nickname is too short") ∧
      ∃ err : GoError,
        Service.Create fixtureStdlib (mockService (none, none) none none) World.fresh
            { validUser with Nickname := "x" } "testpwd"
          = (.returned (none, some err), World.fresh) ∧
        errors.Is err ErrInvalidUserInputData = true ∧
        err.Error = "input user data is invalid: nickname is too short") ∧
    ((⟨1⟩ : UUID) ≠ uuid.Nil ∧
      ({ validUser with Country := "x" } : User).ValidateIfNotEmpty
        = some (.errorsNew "country must have exactly 2 characters") ∧
      ∃ err : GoError,
        Service.Update fixtureStdlib (mockService (none, none) none none) World.fresh ⟨1⟩
            { validUser with Country := "x" } ""
          = (.returned (none, some err), World.fresh) ∧
        errors.Is err ErrInvalidUserInputData = true ∧
        err.Error = "input user data is invalid: country must have exactly 2 characters") :=
  ⟨⟨by decide, by decide,
      (validation_failure_is_wrapped fixtureStdlib (mockService (none, none) none none)
        World.fresh).1 { validUser with Nickname := "x" } "testpwd"
        (.errorsNew "nickname is too short") (by decide) (by decide)⟩,
    ⟨by decide, by decide,
      (validation_failure_is_wrapped fixtureStdlib (mockService (none, none) none none)
        World.fresh).2 ⟨1⟩ { validUser with Country := "x" } ""
        (.errorsNew "country must have exactly 2 characters") (by decide) (by decide)⟩⟩

/-! ### Creation -/

/-- Claim C8: for every user with unset id that passes `User.Validate` and every password
`p`, the repository calls `Service.Create` makes are exactly one `create`, whose user
argument is the input user with `Country` replaced by its upper-cased form and whose
password argument is `encryptPass p`, the hexadecimal formatting of the SHA-256 digest of
the bytes of `p`, a function of `p` alone. -/
theorem Create_calls_gateway_create_once {σ π : Type} (lib : Stdlib) (s : Service σ π)
    (w : World σ π) (user : User) (p : String) (hid : user.ID = uuid.Nil)
    (hval : user.Validate lib = none) :
    (Service.Create lib s w user p).2.repositoryCalls
      = w.repositoryCalls
          ++ [Call.create { user with Country := strings.ToUpper lib user.Country }
                (encryptPass p)] ∧
    encryptPass p = sprintfHex (sha256.Sum256 (sha256.bytesOf p)) := by
  refine ⟨?_, rfl⟩
  show _ = w.repositoryCalls ++ [Call.create (user.upperCountry lib) (encryptPass p)]
  unfold Service.Create
  rcases hc : s.repository.create w.db (user.upperCountry lib) (encryptPass p) with ⟨⟨nu, e⟩, db1⟩
  cases nu <;> cases e <;>
    simp [hid, hval, hc, World.repositoryCalls, World.repo, World.pub, Call.isRepository]

/-- Claim C8 at the input of `TestCreate`: `validUser` with the country "us" and the
password "testpwd" reach the repository as `validUser` and `testpwdHash`. -/
theorem Create_calls_gateway_create_once_witness :
    ({ validUser with Country := "us" } : User).ID = uuid.Nil ∧
    ({ validUser with Country := "us" } : User).Validate fixtureStdlib = none ∧
    (Service.Create fixtureStdlib (mockService (some validUser, none) none none) World.fresh
        { validUser with Country := "us" } "testpwd").2.repositoryCalls
      = [Call.create validUser testpwdHash] := by
  refine ⟨by decide, by decide, ?_⟩
  have h := (Create_calls_gateway_create_once fixtureStdlib
    (mockService (some validUser, none) none none) World.fresh
    { validUser with Country := "us" } "testpwd" (by decide) (by decide)).1
  rw [h]
  decide

/-- Claim C9 as stated fails: when the repository's `create` returns a nil user with a nil
error, `Service.Create` does not return that pair; it faults on `newUser.ID` (input
`validUser`, password "testpwd"). -/
theorem Create_faults_when_gateway_returns_nil_user_and_nil_error :
    (Service.Create fixtureStdlib (mockService (none, none) none none) World.fresh
        validUser "testpwd").1 = .panicked ∧
    ¬ ((Service.Create fixtureStdlib (mockService (none, none) none none) World.fresh
        validUser "testpwd").1 = .returned (none, none)) := by
  decide

/-- Claim C9, amended: for every user with unset id that passes `User.Validate`, if the
repository's `create` returns the pair `(r, e)` and that pair is not a nil user with a nil
error, then `Service.Create` returns exactly `(r, e)`; when `e` is nil its publisher calls
are exactly one `publishCreated` with the id of the returned user and the returned user as
snapshot; when `e` is not nil it makes no publisher call. -/
theorem Create_returns_gateway_pair {σ π : Type} (lib : Stdlib) (s : Service σ π)
    (w : World σ π) (user : User) (password : String) (r : Option User) (e : Option GoError)
    (db1 : σ) (hid : user.ID = uuid.Nil) (hval : user.Validate lib = none)
    (hgw : s.repository.create w.db (user.upperCountry lib) (encryptPass password)
      = ((r, e), db1))
    (hnn : ¬ (r = none ∧ e = none)) :
    (Service.Create lib s w user password).1 = .returned (r, e) ∧
    (Service.Create lib s w user password).2.publisherCalls
      = w.publisherCalls ++
          (match r, e with
            | some u, none => [Call.publishCreated u.ID (some u)]
            | _, _ => []) := by
  unfold Service.Create
  cases r <;> cases e
  · exact absurd ⟨rfl, rfl⟩ hnn
  all_goals
    simp [hid, hval, hgw, World.publisherCalls, World.repo, World.pub, Call.isPublisher,
      Call.isRepository]

/-- The amended claim C9 at `validUser` and a repository that stores it under the
identifier 9. -/
theorem Create_returns_gateway_pair_witness :
    validUser.ID = uuid.Nil ∧ validUser.Validate fixtureStdlib = none ∧
    (Service.Create fixtureStdlib (mockService (some { validUser with ID := ⟨9⟩ }, none) none none)
        World.fresh validUser "testpwd").1
      = .returned (some { validUser with ID := ⟨9⟩ }, none) ∧
    (Service.Create fixtureStdlib (mockService (some { validUser with ID := ⟨9⟩ }, none) none none)
        World.fresh validUser "testpwd").2.publisherCalls
      = [Call.publishCreated ⟨9⟩ (some { validUser with ID := ⟨9⟩ })] :=
  ⟨by decide, by decide,
    Create_returns_gateway_pair fixtureStdlib
      (mockService (some { validUser with ID := ⟨9⟩ }, none) none none) World.fresh validUser
      "testpwd" (some { validUser with ID := ⟨9⟩ }) none () (by decide) (by decide) rfl
      (by decide)⟩

/-! ### The empty update -/

/-- Claim C10: for every non-nil id, `Service.Update` with the all-empty user value and the
empty password returns a nil user and a nil error and leaves the world as it was: no
repository call, no publisher call. -/
theorem Update_of_nothing_does_nothing {σ π : Type} (lib : Stdlib) (s : Service σ π)
    (w : World σ π) (id : UUID) (hid : id ≠ uuid.Nil) :
    Service.Update lib s w id emptyUser "" = (.returned (none, none), w) := by
  have hv : emptyUser.ValidateIfNotEmpty = none := by decide
  have hc : emptyUser.Country = "" := rfl
  simp [Service.Update, hid, hv, hc, Service.updateProfile]

/-- Claim C10 at the identifier 1. -/
theorem Update_of_nothing_does_nothing_witness :
    (⟨1⟩ : UUID) ≠ uuid.Nil ∧
    Service.Update fixtureStdlib (mockService (some validUser, none) none none) World.fresh ⟨1⟩
        emptyUser ""
      = (.returned (none, none), World.fresh) :=
  ⟨by decide, Update_of_nothing_does_nothing fixtureStdlib _ World.fresh ⟨1⟩ (by decide)⟩

/-! ### The two steps of an update -/

/-- Claim C11: for every non-nil id and every non-empty user-changes value `c` that passes
partial validation, when the repository's `update` succeeds with the user `u`,
`Service.Update` with the empty password returns `u` with a nil error, and the collaborator
calls it makes are exactly two: `update` with the id and `c` with `Country` upper-cased, then
`publishUpdated` with the id and `u`. No `updatePassword` and no `publishPasswordChanged`
is among them. -/
theorem Update_profile_only {σ π : Type} (lib : Stdlib) (s : Service σ π) (w : World σ π)
    (id : UUID) (c : User) (u : Option User) (db1 : σ)
    (hid : id ≠ uuid.Nil) (hval : c.ValidateIfNotEmpty = none) (hne : c ≠ emptyUser)
    (hgw : s.repository.update w.db id { c with Country := strings.ToUpper lib c.Country }
      = ((u, none), db1)) :
    (Service.Update lib s w id c "").1 = .returned (u, none) ∧
    (Service.Update lib s w id c "").2.calls
      = w.calls ++ [Call.update id { c with Country := strings.ToUpper lib c.Country },
                    Call.publishUpdated id u] := by
  have hne2 := upperCountry_ne_empty lib c hne
  change s.repository.update w.db id (c.upperCountry lib) = _ at hgw
  show _ ∧ _ = w.calls ++ [Call.update id (c.upperCountry lib), Call.publishUpdated id u]
  simp [Service.Update, hid, hval, upperCountry_ite, Service.updateProfile, World.repo,
    World.pub, hgw, hne2]

/-- Claim C11 at the identifier 1 and `validUser` with the country "us". -/
theorem Update_profile_only_witness :
    (⟨1⟩ : UUID) ≠ uuid.Nil ∧
    ({ validUser with Country := "us" } : User).ValidateIfNotEmpty = none ∧
    ({ validUser with Country := "us" } : User) ≠ emptyUser ∧
    (mockService (some validUser, none) none none).repository.update World.fresh.db ⟨1⟩
        validUser = ((some validUser, none), ()) ∧
    (Service.Update fixtureStdlib (mockService (some validUser, none) none none) World.fresh
        ⟨1⟩ { validUser with Country := "us" } "").1 = .returned (some validUser, none) ∧
    (Service.Update fixtureStdlib (mockService (some validUser, none) none none) World.fresh
        ⟨1⟩ { validUser with Country := "us" } "").2.calls
      = [Call.update ⟨1⟩ validUser, Call.publishUpdated ⟨1⟩ (some validUser)] :=
  ⟨by decide, by decide, by decide, rfl,
    Update_profile_only fixtureStdlib (mockService (some validUser, none) none none)
      World.fresh ⟨1⟩ { validUser with Country := "us" } (some validUser) ()
      (by decide) (by decide) (by decide) rfl⟩

/-- Claim C12: for every non-nil id and every non-empty password `p`, `Service.Update` with
the all-empty user value makes exactly one repository call, `updatePassword` with the id and
`encryptPass p`; when that call returns no error it is followed by exactly one
`publishPasswordChanged` for the id and the result is a nil user with a nil error; when it
returns the error `e` no event is published and the result is a nil user with `e`. No
`update` and no `publishUpdated` is among the calls. -/
theorem Update_password_only {σ π : Type} (lib : Stdlib) (s : Service σ π) (w : World σ π)
    (id : UUID) (p : String) (e : Option GoError) (db1 : σ)
    (hid : id ≠ uuid.Nil) (hp : p ≠ "")
    (hgw : s.repository.updatePassword w.db id (encryptPass p) = (e, db1)) :
    (Service.Update lib s w id emptyUser p).1 = .returned (none, e) ∧
    (Service.Update lib s w id emptyUser p).2.calls
      = w.calls ++ Call.updatePassword id (encryptPass p) ::
          (match e with
            | none => [Call.publishPasswordChanged id]
            | some _ => []) := by
  have hv : emptyUser.ValidateIfNotEmpty = none := by decide
  have hc : emptyUser.Country = "" := rfl
  cases e <;>
    simp [Service.Update, hid, hv, hc, hp, Service.updateProfile, World.repo, World.pub, hgw]

/-- Claim C12 at the identifier 1 and the password "testpwd". -/
theorem Update_password_only_witness :
    (⟨1⟩ : UUID) ≠ uuid.Nil ∧ "testpwd" ≠ "" ∧
    (Service.Update fixtureStdlib (mockService (none, none) none none) World.fresh ⟨1⟩
        emptyUser "testpwd").1 = .returned (none, none) ∧
    (Service.Update fixtureStdlib (mockService (none, none) none none) World.fresh ⟨1⟩
        emptyUser "testpwd").2.calls
      = [Call.updatePassword ⟨1⟩ (encryptPass "testpwd"), Call.publishPasswordChanged ⟨1⟩] :=
  ⟨by decide, by decide,
    Update_password_only fixtureStdlib (mockService (none, none) none none) World.fresh ⟨1⟩
      "testpwd" none () (by decide) (by decide) rfl⟩

/-- Claim C13 as stated fails: with the changes `validUser` whose country is written "us",
the first call is not `update(id, c)` but `update` with the country upper-cased to "US"
(identifier 1, password "testpwd", both repository calls succeeding). -/
theorem Update_combined_sends_upper_cased_changes :
    (Service.Update fixtureStdlib (mockService (some validUser, none) none none) World.fresh
        ⟨1⟩ { validUser with Country := "us" } "testpwd").2.calls
      = [Call.update ⟨1⟩ validUser, Call.publishUpdated ⟨1⟩ (some validUser),
         Call.updatePassword ⟨1⟩ testpwdHash, Call.publishPasswordChanged ⟨1⟩] ∧
    ¬ ((Service.Update fixtureStdlib (mockService (some validUser, none) none none) World.fresh
        ⟨1⟩ { validUser with Country := "us" } "testpwd").2.calls
      = [Call.update ⟨1⟩ { validUser with Country := "us" },
         Call.publishUpdated ⟨1⟩ (some validUser),
         Call.updatePassword ⟨1⟩ testpwdHash, Call.publishPasswordChanged ⟨1⟩]) := by
  decide

/-- Claim C13, amended: for every non-nil id, every non-empty user-changes value `c` that
passes partial validation and every non-empty password `p`, when both repository calls
succeed the collaborator calls of `Service.Update` are exactly, in this order: `update` with
the id and `c` with `Country` upper-cased, `publishUpdated` with the id and the returned
user, `updatePassword` with the id and `encryptPass p`, `publishPasswordChanged` with the
id; the result is the user returned by `update` with a nil error. -/
theorem Update_combined_order {σ π : Type} (lib : Stdlib) (s : Service σ π) (w : World σ π)
    (id : UUID) (c : User) (p : String) (u : Option User) (db1 db2 : σ)
    (hid : id ≠ uuid.Nil) (hval : c.ValidateIfNotEmpty = none) (hne : c ≠ emptyUser)
    (hp : p ≠ "")
    (hgw1 : s.repository.update w.db id { c with Country := strings.ToUpper lib c.Country }
      = ((u, none), db1))
    (hgw2 : s.repository.updatePassword db1 id (encryptPass p) = (none, db2)) :
    (Service.Update lib s w id c p).1 = .returned (u, none) ∧
    (Service.Update lib s w id c p).2.calls
      = w.calls ++ [Call.update id { c with Country := strings.ToUpper lib c.Country },
                    Call.publishUpdated id u,
                    Call.updatePassword id (encryptPass p),
                    Call.publishPasswordChanged id] := by
  have hne2 := upperCountry_ne_empty lib c hne
  change s.repository.update w.db id (c.upperCountry lib) = _ at hgw1
  show _ ∧ _ = w.calls ++ [Call.update id (c.upperCountry lib), Call.publishUpdated id u,
    Call.updatePassword id (encryptPass p), Call.publishPasswordChanged id]
  simp [Service.Update, hid, hval, hp, upperCountry_ite, Service.updateProfile, World.repo,
    World.pub, hgw1, hgw2, hne2]

/-- The amended claim C13 at the input of `TestUpdate_UserAndPassword`. -/
theorem Update_combined_order_witness :
    (⟨1⟩ : UUID) ≠ uuid.Nil ∧ validUser.ValidateIfNotEmpty = none ∧ validUser ≠ emptyUser ∧
    "testpwd" ≠ "" ∧
    (Service.Update fixtureStdlib (mockService (some validUser, none) none none) World.fresh
        ⟨1⟩ validUser "testpwd").1 = .returned (some validUser, none) ∧
    (Service.Update fixtureStdlib (mockService (some validUser, none) none none) World.fresh
        ⟨1⟩ validUser "testpwd").2.calls
      = [Call.update ⟨1⟩ validUser, Call.publishUpdated ⟨1⟩ (some validUser),
         Call.updatePassword ⟨1⟩ (encryptPass "testpwd"), Call.publishPasswordChanged ⟨1⟩] :=
  ⟨by decide, by decide, by decide, by decide,
    Update_combined_order fixtureStdlib (mockService (some validUser, none) none none)
      World.fresh ⟨1⟩ validUser "testpwd" (some validUser) () () (by decide) (by decide)
      (by decide) (by decide) rfl rfl⟩

/-! ### Delete, Get and List -/

/-- Claim C14: for every non-nil id, `Service.Delete` calls `deleteByID` exactly once with
that id and returns exactly the error it returned; the call is followed by exactly one
`publishDeleted` for that id when the repository returned no error, and by no call when it
returned an error. -/
theorem Delete_delegates_and_publishes_on_success {σ π : Type} (s : Service σ π)
    (w : World σ π) (id : UUID) (e : Option GoError) (db1 : σ) (hid : id ≠ uuid.Nil)
    (hgw : s.repository.deleteByID w.db id = (e, db1)) :
    (Service.Delete s w id).1 = .returned e ∧
    (Service.Delete s w id).2.calls
      = w.calls ++ Call.deleteByID id ::
          (match e with
            | none => [Call.publishDeleted id]
            | some _ => []) := by
  cases e <;> simp [Service.Delete, hid, World.repo, World.pub, hgw]

/-- Claim C14 at the identifier 1 and a succeeding repository. -/
theorem Delete_delegates_and_publishes_on_success_witness :
    (⟨1⟩ : UUID) ≠ uuid.Nil ∧
    (Service.Delete (mockService (none, none) none none) World.fresh ⟨1⟩).1 = .returned none ∧
    (Service.Delete (mockService (none, none) none none) World.fresh ⟨1⟩).2.calls
      = [Call.deleteByID ⟨1⟩, Call.publishDeleted ⟨1⟩] :=
  ⟨by decide,
    Delete_delegates_and_publishes_on_success (mockService (none, none) none none)
      World.fresh ⟨1⟩ none () (by decide) rfl⟩

/-- Claim C15: for every non-nil id, `Service.Get` returns exactly the pair that the
repository's `findByID` returns for that id, its only collaborator call is that
`findByID`, and it makes no publisher call. -/
theorem Get_delegates {σ π : Type} (s : Service σ π) (w : World σ π) (id : UUID)
    (hid : id ≠ uuid.Nil) :
    (Service.Get s w id).1 = .returned (s.repository.findByID w.db id).1 ∧
    (Service.Get s w id).2.calls = w.calls ++ [Call.findByID id] ∧
    (Service.Get s w id).2.publisherCalls = w.publisherCalls := by
  simp [Service.Get, hid, World.repo, World.publisherCalls, Call.isPublisher, Call.isRepository]

/-- Claim C15 at the identifier 1 and a repository that answers `ErrUserNotFound`, which
surfaces unchanged. -/
theorem Get_delegates_witness :
    (⟨1⟩ : UUID) ≠ uuid.Nil ∧
    (Service.Get (mockService (none, some ErrUserNotFound) none none) World.fresh ⟨1⟩).1
      = .returned (none, some ErrUserNotFound) ∧
    (Service.Get (mockService (none, some ErrUserNotFound) none none) World.fresh ⟨1⟩).2.calls
      = [Call.findByID ⟨1⟩] ∧
    (Service.Get (mockService (none, some ErrUserNotFound) none none)
        World.fresh ⟨1⟩).2.publisherCalls = [] :=
  ⟨by decide,
    Get_delegates (mockService (none, some ErrUserNotFound) none none) World.fresh ⟨1⟩
      (by decide)⟩

/-- Claim C16: for every pagination `p` and every non-nil filter `f`: if `p.Page < 0` or
`p.PageSize < 0`, `Service.List` returns an error that `errors.Is` matches with
`ErrInvalidPagination`, whatever `f` is; otherwise, if `f` fails `User.ValidateIfNotEmpty`,
it returns an error that `errors.Is` matches with `ErrInvalidFilter`; in both cases the
world is left as it was, so `list` is not called; otherwise it returns exactly what the
repository's `list` returns for `p` and `f` as given, that call being its only one. In no
case is a publisher call made. -/
theorem List_validates_then_delegates {σ π : Type} (s : Service σ π) (w : World σ π)
    (p : Pagination) (f : User) :
    (p.Page < 0 ∨ p.PageSize < 0 →
      ∃ err : GoError,
        Service.List s w p (some f) = (.returned ([], some err), w) ∧
        errors.Is err ErrInvalidPagination = true) ∧
    (¬ (p.Page < 0 ∨ p.PageSize < 0) → f.ValidateIfNotEmpty ≠ none →
      ∃ err : GoError,
        Service.List s w p (some f) = (.returned ([], some err), w) ∧
        errors.Is err ErrInvalidFilter = true) ∧
    (¬ (p.Page < 0 ∨ p.PageSize < 0) → f.ValidateIfNotEmpty = none →
      (Service.List s w p (some f)).1 = .returned (s.repository.list w.db p (some f)).1 ∧
      (Service.List s w p (some f)).2.calls = w.calls ++ [Call.list p (some f)]) ∧
    (Service.List s w p (some f)).2.publisherCalls = w.publisherCalls := by
  refine ⟨?_, ?_, ?_, ?_⟩
  · intro h
    have hv : ∃ m, p.Validate = some m := by
      unfold Pagination.Validate
      rcases h with h | h
      · exact ⟨_, if_pos h⟩
      · by_cases h1 : p.Page < 0
        · exact ⟨_, if_pos h1⟩
        · exact ⟨_, by rw [if_neg h1, if_pos h]⟩
    obtain ⟨m, hm⟩ := hv
    exact ⟨fmtErrorf ErrInvalidPagination m.Error, by simp [Service.List, hm],
      by simp [fmtErrorf, errors.Is, ErrInvalidPagination]⟩
  · intro h hf
    have hv : p.Validate = none := by
      unfold Pagination.Validate
      rw [if_neg (fun h1 => h (Or.inl h1)), if_neg (fun h2 => h (Or.inr h2))]
    cases hm : f.ValidateIfNotEmpty with
    | none => exact absurd hm hf
    | some m =>
      exact ⟨fmtErrorf ErrInvalidFilter m.Error, by simp [Service.List, hv, hm],
        by simp [fmtErrorf, errors.Is, ErrInvalidFilter]⟩
  · intro h hf
    have hv : p.Validate = none := by
      unfold Pagination.Validate
      rw [if_neg (fun h1 => h (Or.inl h1)), if_neg (fun h2 => h (Or.inr h2))]
    simp [Service.List, hv, hf, World.repo]
  · unfold Service.List
    cases hv : p.Validate with
    | some m => simp
    | none =>
      cases hm : f.ValidateIfNotEmpty with
      | some m => simp [hm]
      | none =>
        simp [hm, World.repo, World.publisherCalls, Call.isPublisher, Call.isRepository]

/-- Claim C16 at a service whose repository returns no rows: the pagination (-1, 2) with
the invalid filter first name "x"; the pagination (1, 2) with that filter; the pagination
(1, 2) with the filter first name "test" of `TestList`. -/
theorem List_validates_then_delegates_witness :
    (((⟨-1, 2⟩ : Pagination).Page < 0 ∨ (⟨-1, 2⟩ : Pagination).PageSize < 0) ∧
      ∃ err : GoError,
        Service.List (mockService (none, none) none none) World.fresh ⟨-1, 2⟩
            (some { emptyUser with FirstName := "x" })
          = (.returned ([], some err), World.fresh) ∧
        errors.Is err ErrInvalidPagination = true) ∧
    (¬ ((⟨1, 2⟩ : Pagination).Page < 0 ∨ (⟨1, 2⟩ : Pagination).PageSize < 0) ∧
      ({ emptyUser with FirstName := "x" } : User).ValidateIfNotEmpty ≠ none ∧
      ∃ err : GoError,
        Service.List (mockService (none, none) none none) World.fresh ⟨1, 2⟩
            (some { emptyUser with FirstName := "x" })
          = (.returned ([], some err), World.fresh) ∧
        errors.Is err ErrInvalidFilter = true) ∧
    (({ emptyUser with FirstName := "test" } : User).ValidateIfNotEmpty = none ∧
      (Service.List (mockService (none, none) none none) World.fresh ⟨1, 2⟩
          (some { emptyUser with FirstName := "test" })).1 = .returned ([], none) ∧
      (Service.List (mockService (none, none) none none) World.fresh ⟨1, 2⟩
          (some { emptyUser with FirstName := "test" })).2.calls
        = [Call.list ⟨1, 2⟩ (some { emptyUser with FirstName := "test" })]) :=
  ⟨⟨by decide,
      (List_validates_then_delegates (mockService (none, none) none none) World.fresh ⟨-1, 2⟩
        { emptyUser with FirstName := "x" }).1 (by decide)⟩,
    ⟨by decide, by decide,
      (List_validates_then_delegates (mockService (none, none) none none) World.fresh ⟨1, 2⟩
        { emptyUser with FirstName := "x" }).2.1 (by decide) (by decide)⟩,
    ⟨by decide,
      (List_validates_then_delegates (mockService (none, none) none none) World.fresh ⟨1, 2⟩
        { emptyUser with FirstName := "test" }).2.2.1 (by decide) (by decide)⟩⟩

/-! ### The password digest -/

namespace sha256

/-- A round keeps the number of working variables. -/
theorem round_length (v : List Nat) (kw : Nat × Nat) : (round v kw).length = v.length := by
  unfold round
  split <;> simp

/-- Any number of rounds keeps the number of working variables. -/
theorem foldl_round_length (l : List (Nat × Nat)) (h : List Nat) :
    (l.foldl round h).length = h.length := by
  induction l generalizing h with
  | nil => rfl
  | cons x xs ih => rw [List.foldl_cons, ih, round_length]

/-- Compression keeps the number of words of the hash state. -/
theorem compress_length (h block : List Nat) : (compress h block).length = h.length := by
  simp [compress, foldl_round_length]

/-- Hashing any number of blocks keeps the number of words of the hash state. -/
theorem blocks_length (n : Nat) (h bs : List Nat) : (blocks n h bs).length = h.length := by
  induction n generalizing h bs with
  | zero => rfl
  | succ k ih => rw [blocks, ih, compress_length]

/-- The big-endian encoding on `k` bytes has `k` bytes. -/
theorem beBytes_length (k n : Nat) : (beBytes k n).length = k := by
  induction k with
  | zero => rfl
  | succ k ih => simp [beBytes, ih]

/-- Every byte of a big-endian encoding is below 256. -/
theorem beBytes_lt (k n b : Nat) (hb : b ∈ beBytes k n) : b < 256 := by
  induction k with
  | zero => simp [beBytes] at hb
  | succ k ih =>
    simp only [beBytes, List.mem_cons] at hb
    rcases hb with hb | hb
    · rw [hb]; exact Nat.mod_lt _ (by decide)
    · exact ih hb

/-- Four bytes are written per word. -/
theorem flatMap_beBytes_length (l : List Nat) : (l.flatMap (beBytes 4)).length = 4 * l.length := by
  induction l with
  | nil => rfl
  | cons x xs ih =>
    rw [List.flatMap_cons, List.length_append, ih, beBytes_length, List.length_cons]
    omega

/-- The digest has 32 bytes. -/
theorem Sum256_length (data : List Nat) : (Sum256 data).length = 32 := by
  unfold Sum256
  rw [flatMap_beBytes_length, blocks_length]
  rfl

/-- Every byte of the digest is below 256. -/
theorem Sum256_lt (data : List Nat) (b : Nat) (hb : b ∈ Sum256 data) : b < 256 := by
  unfold Sum256 at hb
  rw [List.mem_flatMap] at hb
  obtain ⟨x, _, hx⟩ := hb
  exact beBytes_lt 4 x b hx

end sha256

/-- A hexadecimal digit is one of `0-9a-f`. -/
theorem hexDigit_mem : ∀ n, n < 16 → hexDigit n ∈ hexChars := by
  decide

/-- The hexadecimal formatting writes two characters per byte. -/
theorem sprintfHex_length (bs : List Nat) : (sprintfHex bs).length = 2 * bs.length := by
  unfold sprintfHex
  show (bs.flatMap _).length = _
  induction bs with
  | nil => rfl
  | cons x xs ih =>
    rw [List.flatMap_cons, List.length_append, ih, List.length_cons]
    simp
    omega

/-- The hexadecimal formatting of bytes writes only characters `0-9a-f`. -/
theorem sprintfHex_chars (bs : List Nat) (hbs : ∀ b ∈ bs, b < 256) :
    ∀ c ∈ (sprintfHex bs).data, c ∈ hexChars := by
  intro c hc
  unfold sprintfHex at hc
  simp only [List.mem_flatMap, List.mem_cons, List.mem_singleton, List.not_mem_nil,
    or_false] at hc
  obtain ⟨b, hb, hcb⟩ := hc
  have hlt := hbs b hb
  rcases hcb with h | h
  · rw [h]; exact hexDigit_mem _ (by omega)
  · rw [h]; exact hexDigit_mem _ (Nat.mod_lt _ (by decide))

set_option maxRecDepth 100000 in
/-- Claim C17: `encryptPass` is the lowercase hexadecimal SHA-256 digest. It yields the
digest `testpwdHash` of the tests for "testpwd" and the published SHA-256 digests of the
empty string, of "abc", of a message of 55 bytes (the longest that pads to one block), of
the two-block message of 56 bytes of the standard's examples, of messages of 64 and of 119
bytes, and of passwords written with runes of two, three and four bytes; and for every
input the result has exactly 64 characters, each one of `0-9a-f`. -/
theorem encryptPass_is_hex_sha256 :
    encryptPass "testpwd" = "a85b6a20813c31a8b1b3f3618da796271c9aa293b3f809873053b21aec501087" ∧
    encryptPass "" = "e3b0c44298fc1c149afbf4c8996fb92427ae41e4649b934ca495991b7852b855" ∧
    encryptPass "abc" = "ba7816bf8f01cfea414140de5dae2223b00361a396177a9cb410ff61f20015ad" ∧
    encryptPass "aaaaaaaaaaaaaaaaaaaaaaaaaaaaaaaaaaaaaaaaaaaaaaaaaaaaaaa"
      = "9f4390f8d30c2dd92ec9f095b65e2b9ae9b0a925a5258e241c9f1e910f734318" ∧
    encryptPass "abcdbcdecdefdefgefghfghighijhijkijkljklmklmnlmnomnopnopq"
      = "248d6a61d20638b8e5c026930c3e6039a33ce45964ff2167f6ecedd419db06c1" ∧
    encryptPass "aaaaaaaaaaaaaaaaaaaaaaaaaaaaaaaaaaaaaaaaaaaaaaaaaaaaaaaaaaaaaaaa"
      = "ffe054fe7ae0cb6dc65c3af9b61d5209f439851db43d0ba5997337df154668eb" ∧
    encryptPass (String.mk (List.replicate 119 'a'))
      = "31eba51c313a5c08226adf18d4a359cfdfd8d2e816b13f4af952f7ea6584dcfb" ∧
    encryptPass "pässwörd"
      = "46970bef70aced8123f0d5d094717e2a5cd412041e03b26376049fe65b2834a4" ∧
    encryptPass "пароль€"
      = "2bc3fe9f103c27c05dd7c7a1fc9b786ea48220783dd93acfe64799d3a0828a07" ∧
    encryptPass "😀" = "f0443a342c5ef54783a111b51ba56c938e474c32324d90c3a60c9c8e3a37e2d9" ∧
    ∀ pass : String,
      (encryptPass pass).length = 64 ∧ ∀ c ∈ (encryptPass pass).data, c ∈ hexChars := by
  refine ⟨by decide, by decide, by decide, by decide, by decide, by decide, by decide,
    by decide, by decide, by decide, fun pass => ⟨?_, ?_⟩⟩
  · rw [encryptPass, sprintfHex_length, sha256.Sum256_length]
  · exact sprintfHex_chars _ (sha256.Sum256_lt _)

/-! ### Validation -/

/-- Claim C18: for every user, `User.Validate` returns no error if and only if `len` of the
first name and of the last name is at least 2, `len` of the nickname is at least 3, `len`
of the country is exactly 2 and `net/mail.ParseAddress` accepts the email; in every other
case it returns an error. -/
theorem Validate_accepts_exactly_valid_users (lib : Stdlib) (u : User) :
    u.Validate lib = none ↔
      (2 ≤ len u.FirstName ∧ 2 ≤ len u.LastName ∧ 3 ≤ len u.Nickname ∧ len u.Country = 2 ∧
        lib.mailParseAddressOk u.Email = true) := by
  unfold User.Validate
  by_cases h1 : len u.FirstName < 2
  · simp [h1]
  by_cases h2 : len u.LastName < 2
  · simp [h1, h2]
  by_cases h3 : len u.Nickname < 3
  · simp [h1, h2, h3]
  by_cases h4 : len u.Country = 2
  · cases h5 : lib.mailParseAddressOk u.Email
    · simp [h1, h2, h3, h4, h5]
    · simp [h1, h2, h3, h4, h5]
      omega
  · simp [h1, h2, h3, h4]

/-- Claim C20: for every user, `User.ValidateIfNotEmpty` returns no error if and only if
each of first name, last name, nickname and email is empty or has `len` at least 2 and the
country is empty or has `len` exactly 2; the all-empty user is accepted. -/
theorem ValidateIfNotEmpty_checks_non_empty_fields (u : User) :
    (u.ValidateIfNotEmpty = none ↔
      ((u.FirstName = "" ∨ 2 ≤ len u.FirstName) ∧ (u.LastName = "" ∨ 2 ≤ len u.LastName) ∧
        (u.Nickname = "" ∨ 2 ≤ len u.Nickname) ∧ (u.Email = "" ∨ 2 ≤ len u.Email) ∧
        (u.Country = "" ∨ len u.Country = 2))) ∧
    emptyUser.ValidateIfNotEmpty = none := by
  refine ⟨?_, by decide⟩
  unfold User.ValidateIfNotEmpty
  by_cases h1 : u.FirstName ≠ "" ∧ len u.FirstName < 2
  · simp [h1]
  by_cases h2 : u.LastName ≠ "" ∧ len u.LastName < 2
  · simp [h1, h2]
  by_cases h3 : u.Nickname ≠ "" ∧ len u.Nickname < 2
  · simp [h1, h2, h3]
  by_cases h4 : u.Email ≠ "" ∧ len u.Email < 2
  · simp [h1, h2, h3, h4]
  by_cases h5 : u.Country ≠ "" ∧ len u.Country ≠ 2
  · simp [h1, h2, h3, h4, h5]
  · simp only [if_neg h1, if_neg h2, if_neg h3, if_neg h4, if_neg h5, true_iff]
    simp only [not_and_or, not_not, not_lt] at h1 h2 h3 h4 h5
    exact ⟨h1, h2, h3, h4, h5⟩

/-! ### The country handed to the repository -/

/-- Subtracting 32 from the code of a letter `a` to `z` gives a letter `A` to `Z`. -/
theorem ofNat_lower_is_upper :
    ∀ n, n < 123 → 97 ≤ n → isUppercaseLetter (Char.ofNat (n - 32)) = true := by
  decide

/-- Upper-casing a letter `A-Za-z` gives a letter `A` to `Z`. -/
theorem unicode_ToUpper_of_letter (lib : Stdlib) (c : Char) (h : isAsciiLetter c = true) :
    isUppercaseLetter (unicode.ToUpper lib c) = true := by
  simp only [isAsciiLetter, decide_eq_true_eq] at h
  unfold unicode.ToUpper
  rcases h with h | h
  · have h1 : c.toNat ≤ 127 := by omega
    have h2 : ¬ (97 ≤ c.toNat ∧ c.toNat ≤ 122) := by omega
    rw [if_pos h1, if_neg h2]
    simp [isUppercaseLetter, h]
  · have h1 : c.toNat ≤ 127 := by omega
    rw [if_pos h1, if_pos h]
    exact ofNat_lower_is_upper _ (by omega) h.1

/-- Upper-casing two letters `A-Za-z` gives two letters `A` to `Z`. -/
theorem strings_ToUpper_two_letters (lib : Stdlib) (s : String)
    (h : twoAsciiLetters s = true) : twoUppercaseLetters (strings.ToUpper lib s) = true := by
  simp only [twoAsciiLetters, Bool.and_eq_true, decide_eq_true_eq, List.all_eq_true] at h
  simp only [twoUppercaseLetters, strings.ToUpper, Bool.and_eq_true, decide_eq_true_eq,
    List.all_eq_true, List.length_map, List.mem_map]
  refine ⟨h.1, ?_⟩
  rintro c ⟨d, hd, rfl⟩
  exact unicode_ToUpper_of_letter lib d (h.2 d hd)

/-- Claim C19, evaluated where the code departs from it. `validUser` with the country "12"
passes `User.Validate`, whose check is on `len` alone although its error text reads
"country code must be 2 letters", and reaches the repository's `create` with the country
"12", which is not two uppercase letters. -/
theorem Create_hands_over_country_without_letters :
    ({ validUser with Country := "12" } : User).Validate fixtureStdlib = none ∧
    (Service.Create fixtureStdlib (mockService (some validUser, none) none none) World.fresh
        { validUser with Country := "12" } "testpwd").2.repositoryCalls
      = [Call.create { validUser with Country := "12" } testpwdHash] ∧
    twoUppercaseLetters "12" = false := by
  decide

/-! ### Limit and offset -/

/-- A result that fits a Go `int` is kept as it is. -/
theorem wrapInt64_of_fits (x : Int) (h : isInt64 x) : wrapInt64 x = x := by
  unfold isInt64 at h
  unfold wrapInt64
  rw [Int.emod_eq_of_lt (by omega) (by omega)]
  omega

/-- Claim C21 as stated fails: for the page size -1, which is not greater than 0,
`GetLimit` returns -1 and not the default 10. -/
theorem GetLimit_of_negative_page_size :
    (⟨0, -1⟩ : Pagination).GetLimit = -1 ∧ ¬ ((⟨0, -1⟩ : Pagination).GetLimit = 10) := by
  decide

/-- Claim C21, amended: for every `Pagination` value, `GetLimit` returns the page size when
the page size is greater than 0, the default 10 when the page size is 0, and in general the
page size whenever it is different from 0. -/
theorem GetLimit_default_for_zero (p : Pagination) :
    (0 < p.PageSize → p.GetLimit = p.PageSize) ∧
    (p.PageSize = 0 → p.GetLimit = 10) ∧
    (p.PageSize ≠ 0 → p.GetLimit = p.PageSize) := by
  unfold Pagination.GetLimit
  refine ⟨fun h => ?_, fun h => ?_, fun h => ?_⟩
  · rw [if_neg (by omega)]
  · rw [if_pos h]
  · rw [if_neg h]

/-- The amended claim C21 at the page sizes 2, 0 and -1. -/
theorem GetLimit_default_for_zero_witness :
    ((0 : Int) < (⟨0, 2⟩ : Pagination).PageSize ∧ (⟨0, 2⟩ : Pagination).GetLimit = 2) ∧
    ((⟨3, 0⟩ : Pagination).PageSize = 0 ∧ (⟨3, 0⟩ : Pagination).GetLimit = 10) ∧
    ((⟨0, -1⟩ : Pagination).PageSize ≠ 0 ∧ (⟨0, -1⟩ : Pagination).GetLimit = -1) :=
  ⟨⟨by decide, (GetLimit_default_for_zero ⟨0, 2⟩).1 (by decide)⟩,
    ⟨rfl, (GetLimit_default_for_zero ⟨3, 0⟩).2.1 rfl⟩,
    ⟨by decide, (GetLimit_default_for_zero ⟨0, -1⟩).2.2 (by decide)⟩⟩

/-- Claim C22 as stated fails: page 2^32 with page size 2^32 are values of a Go `int`, and
`GetOffset` returns 0 for them, not their product 2^64. -/
theorem GetOffset_differs_from_product_after_overflow :
    isInt64 4294967296 ∧
    (⟨4294967296, 4294967296⟩ : Pagination).GetOffset = 0 ∧
    ¬ ((⟨4294967296, 4294967296⟩ : Pagination).GetOffset
        = (⟨4294967296, 4294967296⟩ : Pagination).Page
            * (⟨4294967296, 4294967296⟩ : Pagination).PageSize) := by
  unfold isInt64
  decide

/-- Claim C22, amended: for every `Pagination` value, `GetOffset` returns the product of
page and page size wrapped to Go's 64-bit `int`, which is the exact product whenever that
is a value of a Go `int`; for the page size 0 the offset is 0 for every page while the
limit is 10. -/
theorem GetOffset_is_product (p : Pagination) :
    p.GetOffset = wrapInt64 (p.Page * p.PageSize) ∧
    (isInt64 (p.Page * p.PageSize) → p.GetOffset = p.Page * p.PageSize) ∧
    (p.PageSize = 0 → p.GetOffset = 0 ∧ p.GetLimit = 10) := by
  refine ⟨rfl, fun h => wrapInt64_of_fits _ h, fun h => ?_⟩
  simp [Pagination.GetOffset, Pagination.GetLimit, h, wrapInt64]

/-- The amended claim C22 at page 2 with page size 1 of `TestListPagination`, and at page 7
with page size 0. -/
theorem GetOffset_is_product_witness :
    (isInt64 ((⟨2, 1⟩ : Pagination).Page * (⟨2, 1⟩ : Pagination).PageSize) ∧
      (⟨2, 1⟩ : Pagination).GetOffset
        = (⟨2, 1⟩ : Pagination).Page * (⟨2, 1⟩ : Pagination).PageSize ∧
      (⟨2, 1⟩ : Pagination).GetOffset = 2) ∧
    ((⟨7, 0⟩ : Pagination).PageSize = 0 ∧ (⟨7, 0⟩ : Pagination).GetOffset = 0 ∧
      (⟨7, 0⟩ : Pagination).GetLimit = 10) :=
  ⟨⟨by unfold isInt64; decide,
      (GetOffset_is_product ⟨2, 1⟩).2.1 (by unfold isInt64; decide), by decide⟩,
    rfl, (GetOffset_is_product ⟨7, 0⟩).2.2 rfl⟩

/-! ### The events of the publisher -/

/-- Claim C23: `publishCreated` and `publishUpdated` marshal and publish the event with
type "USER_CREATED" resp. "USER_UPDATED", the given user id and the given user as
`UserChanges`; `publishDeleted` and `publishPasswordChanged` the event with type
"USER_DELETED" resp. "USER_PASSWORD_CHANGED", the given user id and nil `UserChanges`. -/
theorem publisher_builds_event_of_method {χ : Type} (e : RmqEventPublisher χ) (ch : χ)
    (now : Time) (ctx : Option Context) (userID : UUID) (user : Option User) :
    e.publishCreated ch now ctx userID user
      = e.send ch ctx
          { EventType := "USER_CREATED", UserID := userID, UserChanges := user, Time := now } ∧
    e.publishUpdated ch now ctx userID user
      = e.send ch ctx
          { EventType := "USER_UPDATED", UserID := userID, UserChanges := user, Time := now } ∧
    e.publishDeleted ch now ctx userID
      = e.send ch ctx
          { EventType := "USER_DELETED", UserID := userID, UserChanges := none, Time := now } ∧
    e.publishPasswordChanged ch now ctx userID
      = e.send ch ctx
          { EventType := "USER_PASSWORD_CHANGED", UserID := userID, UserChanges := none,
            Time := now } :=
  ⟨rfl, rfl, rfl, rfl⟩

/-! ### The not-found translation -/

/-- The function `errors.Is` decides "is or wraps". -/
theorem errors_Is_iff_IsOrWraps (target e : GoError) :
    errors.Is e target = true ↔ IsOrWraps target e := by
  induction e with
  | pkgVar v =>
    simp only [errors.Is, decide_eq_true_eq]
    constructor
    · intro h; rw [h]; exact .self
    · intro h; cases h; rfl
  | errorsNew t =>
    simp only [errors.Is, decide_eq_true_eq]
    constructor
    · intro h; rw [h]; exact .self
    · intro h; cases h; rfl
  | wrapped inner detail ih =>
    simp only [errors.Is, Bool.or_eq_true, decide_eq_true_eq]
    constructor
    · rintro (h | h)
      · rw [h]; exact .self
      · exact .wrap inner detail (ih.mp h)
    · intro h
      cases h with
      | self => exact Or.inl rfl
      | wrap _ _ hi => exact Or.inr (ih.mpr hi)

/-- Claim C24: `handleNotFoundError` returns `ErrUserNotFound` for every error that is or
wraps `gorm.ErrRecordNotFound`, and returns every other error, and nil, unchanged. -/
theorem handleNotFoundError_translates_not_found :
    (∀ e : GoError, IsOrWraps gorm.ErrRecordNotFound e →
      handleNotFoundError (some e) = some ErrUserNotFound) ∧
    (∀ e : GoError, ¬ IsOrWraps gorm.ErrRecordNotFound e →
      handleNotFoundError (some e) = some e) ∧
    handleNotFoundError none = none := by
  refine ⟨fun e h => ?_, fun e h => ?_, rfl⟩
  · have := (errors_Is_iff_IsOrWraps gorm.ErrRecordNotFound e).mpr h
    simp [handleNotFoundError, this]
  · have : errors.Is e gorm.ErrRecordNotFound = false := by
      cases hb : errors.Is e gorm.ErrRecordNotFound
      · rfl
      · exact absurd ((errors_Is_iff_IsOrWraps _ e).mp hb) h
    simp [handleNotFoundError, this]

/-- Claim C24 at the record-not-found error, at an error wrapping it, and at another
error. -/
theorem handleNotFoundError_translates_not_found_witness :
    handleNotFoundError (some gorm.ErrRecordNotFound) = some ErrUserNotFound ∧
    handleNotFoundError (some (fmtErrorf gorm.ErrRecordNotFound "no row"))
      = some ErrUserNotFound ∧
    handleNotFoundError (some (.errorsNew "connection refused"))
      = some (.errorsNew "connection refused") :=
  ⟨handleNotFoundError_translates_not_found.1 _ .self,
    handleNotFoundError_translates_not_found.1 _ (.wrap _ _ .self),
    handleNotFoundError_translates_not_found.2.1 _ (by intro h; cases h)⟩

/-! ### The list filter -/

/-- The empty pattern accepts the empty suffix of every string. -/
theorem likeAnySuffix_nil_pattern (s : List Char) : likeAnySuffix (likeMatch []) s = true := by
  induction s with
  | nil => rfl
  | cons c t ih =>
    show (likeMatch [] (c :: t) || likeAnySuffix (likeMatch []) t) = true
    rw [ih, Bool.or_true]

/-- A pattern that starts with `%` skips any number of characters. -/
theorem likeMatch_percent (p s : List Char) :
    likeMatch ('%' :: p) s = likeAnySuffix (likeMatch p) s := by
  rw [likeMatch.eq_def]
  rfl

/-- A pattern that starts with a plain character rejects the empty string. -/
theorem likeMatch_literal_nil (c : Char) (p : List Char)
    (hc : c ≠ '%' ∧ c ≠ '_' ∧ c ≠ likeEscape) : likeMatch (c :: p) [] = false := by
  rw [likeMatch.eq_def]
  simp only [if_neg hc.1, if_neg hc.2.1, if_neg hc.2.2]

/-- A pattern that starts with a plain character consumes that character. -/
theorem likeMatch_literal_cons (c x : Char) (p t : List Char)
    (hc : c ≠ '%' ∧ c ≠ '_' ∧ c ≠ likeEscape) :
    likeMatch (c :: p) (x :: t) = (decide (c = x) && likeMatch p t) := by
  rw [likeMatch.eq_def]
  simp only [if_neg hc.1, if_neg hc.2.1, if_neg hc.2.2]

/-- A pattern of plain characters followed by `%` accepts exactly the strings that start
with those characters. -/
theorem likeMatch_literal_then_percent (p s : List Char)
    (h : ∀ c ∈ p, c ≠ '%' ∧ c ≠ '_' ∧ c ≠ likeEscape) :
    likeMatch (p ++ ['%']) s = p.isPrefixOf s := by
  induction p generalizing s with
  | nil =>
    rw [List.nil_append, likeMatch_percent, likeAnySuffix_nil_pattern]
    cases s <;> rfl
  | cons c p ih =>
    have hc := h c (List.mem_cons_self c p)
    have ih2 := fun s => ih s (fun d hd => h d (List.mem_cons_of_mem c hd))
    cases s with
    | nil =>
      rw [List.cons_append, likeMatch_literal_nil c _ hc]
      rfl
    | cons x t =>
      rw [List.cons_append, likeMatch_literal_cons c x _ t hc, ih2]
      by_cases hx : c = x <;> simp [List.isPrefixOf, hx]


/-- For a filter value free of `%`, `_` and the backslash, the clause `ILIKE f%` selects
exactly the values that start with `f`, ignoring case. -/
theorem ilike_on_literal_filter (lib : Stdlib) (value f : String)
    (h : ∀ c ∈ foldCase lib f, c ≠ '%' ∧ c ≠ '_' ∧ c ≠ likeEscape) :
    ilikeMatch lib value (f ++ "%") = startsWithIgnoringCase lib value f := by
  have hp : foldCase lib (f ++ "%") = foldCase lib f ++ ['%'] := by
    simp [foldCase, strings.ToUpper, unicode.ToUpper]
  rw [ilikeMatch, hp, likeMatch_literal_then_percent _ _ h]
  rfl

/-- Claim C25, evaluated where the code departs from it. The filter first name "j_" passes
partial validation; the clause `list` builds for it is `first_name ILIKE 'j_%'`; that
clause selects a row whose first name is "John", which does not start with "j_". A filter
with every field empty adds no clause. -/
theorem list_filter_treats_underscore_as_wildcard :
    ({ emptyUser with FirstName := "j_" } : User).ValidateIfNotEmpty = none ∧
    (gormRepository.listQuery fixtureStdlib ⟨0, 0⟩
        (some { emptyUser with FirstName := "j_" })).conditions
      = [Condition.ilike "first_name" "j_%"] ∧
    (Condition.ilike "first_name" "j_%").selects fixtureStdlib
        { validUser with FirstName := "John" } = true ∧
    startsWithIgnoringCase fixtureStdlib "John" "j_" = false ∧
    (gormRepository.listQuery fixtureStdlib ⟨0, 0⟩ (some emptyUser)).conditions = [] := by
  decide

/-! ### Nil pointers -/

/-- Claim C26, evaluated where the code departs from it. Over the real `Service`, a PATCH
request that carries only a password changes the password, publishes the event and then
faults in `toUserResponse` on the nil user; a PATCH request with no field faults as well. -/
theorem UpdateByID_faults_on_nil_user :
    Handler.UpdateByID (mockHandler (mockService (none, none) none none)) World.fresh ⟨1⟩
        (.ok (some { FirstName := none, LastName := none, Nickname := none, Email := none,
                     Country := none, Password := some "testpwd" }))
      = (.panicked,
          { db := (), mq := (),
            calls := [.updatePassword ⟨1⟩ testpwdHash, .publishPasswordChanged ⟨1⟩] }) ∧
    Handler.UpdateByID (mockHandler (mockService (none, none) none none)) World.fresh ⟨1⟩
        (.ok (some { FirstName := none, LastName := none, Nickname := none, Email := none,
                     Country := none, Password := none }))
      = (.panicked, World.fresh) := by
  decide

/-- Claim C27, evaluated where the code departs from it. With the pagination (0, 0), which
passes `Validate`, `Service.List` called with a nil filter faults on
`filter.ValidateIfNotEmpty()` before the repository is called, although the repository's
`list` accepts a nil filter and builds no clause for it. -/
theorem List_faults_on_nil_filter :
    (⟨0, 0⟩ : Pagination).Validate = none ∧
    Service.List (mockService (none, none) none none) World.fresh ⟨0, 0⟩ none
      = (.panicked, World.fresh) ∧
    (gormRepository.listQuery fixtureStdlib ⟨0, 0⟩ none).conditions = [] := by
  decide

/-! ### Overflow of the offset -/

/-- Claim C28 as stated fails: page 2^62 with page size 2 are values of a Go `int` and pass
`Validate`, and their product wraps around to -2^63, a negative offset. -/
theorem GetOffset_negative_after_overflow :
    isInt64 4611686018427387904 ∧ isInt64 2 ∧
    (⟨4611686018427387904, 2⟩ : Pagination).Validate = none ∧
    (⟨4611686018427387904, 2⟩ : Pagination).GetOffset = -9223372036854775808 ∧
    ¬ (0 ≤ (⟨4611686018427387904, 2⟩ : Pagination).GetOffset) := by
  unfold isInt64
  decide

/-- Claim C28, amended: for every `Pagination` that passes `Validate` and whose product of
page and page size is below 2^63, `GetOffset` is that product and is non-negative. -/
theorem GetOffset_nonneg_without_overflow (p : Pagination) (hv : p.Validate = none)
    (hfit : p.Page * p.PageSize < 9223372036854775808) :
    p.GetOffset = p.Page * p.PageSize ∧ 0 ≤ p.GetOffset := by
  have h1 : 0 ≤ p.Page := by
    unfold Pagination.Validate at hv
    by_contra h
    rw [if_pos (by omega)] at hv
    exact absurd hv (by simp)
  have h2 : 0 ≤ p.PageSize := by
    unfold Pagination.Validate at hv
    by_contra h
    rw [if_neg (by omega), if_pos (by omega)] at hv
    exact absurd hv (by simp)
  have h3 : 0 ≤ p.Page * p.PageSize := Int.mul_nonneg h1 h2
  have h4 : p.GetOffset = p.Page * p.PageSize :=
    wrapInt64_of_fits _ ⟨by omega, hfit⟩
  exact ⟨h4, by rw [h4]; exact h3⟩

/-- The amended claim C28 at page 2 with page size 1. -/
theorem GetOffset_nonneg_without_overflow_witness :
    (⟨2, 1⟩ : Pagination).Validate = none ∧
    (⟨2, 1⟩ : Pagination).Page * (⟨2, 1⟩ : Pagination).PageSize < 9223372036854775808 ∧
    (⟨2, 1⟩ : Pagination).GetOffset
      = (⟨2, 1⟩ : Pagination).Page * (⟨2, 1⟩ : Pagination).PageSize ∧
    0 ≤ (⟨2, 1⟩ : Pagination).GetOffset :=
  ⟨by decide, by decide, GetOffset_nonneg_without_overflow ⟨2, 1⟩ (by decide) (by decide)⟩

/-! ### The correlation id -/

/-- Claim C29, evaluated where the code departs from it. For a request with the header
`X-Request-Id: abc` and for one without it, the handler of `RequestIDMiddleware` stores the
id in the echo context under "correlation_id", and the context that
`Handler.contextWithTimeout` builds yields the empty string from `GetCorrelationID`:
`GetEchoCorrelationID` looks under `echo.HeaderXCorrelationID`, where nothing is stored. -/
theorem correlation_id_is_lost_between_middleware_and_service :
    (RequestIDHandler "fresh" requestWithId).Get common.CorrelationID = .string "abc" ∧
    common.GetCorrelationID
        (some (Handler.contextWithTimeout (RequestIDHandler "fresh" requestWithId))) = "" ∧
    (RequestIDHandler "fresh" requestWithoutId).Get common.CorrelationID = .string "fresh" ∧
    common.GetCorrelationID
        (some (Handler.contextWithTimeout (RequestIDHandler "fresh" requestWithoutId))) = "" := by
  decide

/-! ### The insert of the repository -/

/-- Claim C30: for every user and password, if the transaction of `gormRepository.create`
begins and the insert in it fails with an error, then `create` returns a non-nil error. The
closure drops the error of the insert, and the error returned is the one of the commit,
which PostgreSQL refuses for the aborted transaction. -/
theorem create_reports_failed_insert {δ : Type} (db : gormDB δ) (d d1 d2 : δ)
    (user user1 : User) (password : String) (e : GoError)
    (hbegin : db.begin d = (none, d1))
    (hinsert : db.create d1 user = ((user1, some e), d2)) :
    gormRepository.create db d user password
      = ((some user1, some pgx.ErrTxCommitRollback), db.rollback d2) ∧
    (gormRepository.create db d user password).1.2 ≠ none := by
  have h : gormRepository.create db d user password
      = ((some user1, some pgx.ErrTxCommitRollback), db.rollback d2) := by
    simp [gormRepository.create, gormDB.Transaction, Tx.run, hbegin, hinsert]
  exact ⟨h, by rw [h]; simp⟩

/-- Claim C30 at `validUser` and a database whose insert fails with "duplicate key"; over
this repository `Service.Create` returns the error and publishes no event. -/
theorem create_reports_failed_insert_witness :
    (mockDB (some (.errorsNew "duplicate key"))).begin () = (none, ()) ∧
    (mockDB (some (.errorsNew "duplicate key"))).create () validUser
      = ((validUser, some (.errorsNew "duplicate key")), ()) ∧
    (gormRepository.create (mockDB (some (.errorsNew "duplicate key"))) () validUser
        testpwdHash
      = ((some validUser, some pgx.ErrTxCommitRollback), ()) ∧
      (gormRepository.create (mockDB (some (.errorsNew "duplicate key"))) () validUser
        testpwdHash).1.2 ≠ none) ∧
    Service.Create fixtureStdlib
        { repository := gormRepository.asRepository fixtureStdlib
            (mockDB (some (.errorsNew "duplicate key"))),
          eventPublisher := mockEventPublisher none }
        World.fresh validUser "testpwd"
      = (.returned (some validUser, some pgx.ErrTxCommitRollback),
          { db := (), mq := (), calls := [.create validUser testpwdHash] }) ∧
    gormRepository.create (mockDB none) () validUser testpwdHash
      = ((some { validUser with ID := ⟨42⟩ }, none), ()) :=
  ⟨rfl, rfl,
    create_reports_failed_insert (mockDB (some (.errorsNew "duplicate key"))) () () ()
      validUser validUser testpwdHash (.errorsNew "duplicate key") rfl rfl,
    by decide, by decide⟩

end Faceit
